import Mathlib

/-!
Shallow embedding of the Sia job-dispatch engine, translated from the
TypeScript sources:

* `apps/api/src/routes/jobs.ts` (job CRUD, execute, reprioritize, queue
  pause endpoints),
* `apps/api/src/temporal/activities/preprocess-activity.ts` (orphan
  reconciliation, in-progress heartbeat, queue claim),
* `apps/api/src/services/agent-registration-service.ts` (agent
  registration), and
* the health-check ping activity (`pingAgentViaStream`).

The database is modelled as lists of rows; each route handler or activity
becomes a pure function from a state (plus the external inputs the handler
receives) to a new state and a result value.  Timestamps are natural
numbers (milliseconds); external collaborators (the LLM title generator,
the Temporal client, the activity-row UUID, the ping RPC outcome, the
schedule hook outcome) are passed in as parameters.
-/

namespace Sia

/-- Job status enumeration, from the `gpr_job_status` pg enum in `db/schema.ts`. -/
inductive JobStatus where
  | queued | inProgress | inReview | completed | failed | archived
deriving DecidableEq, Repr

/-- Queue type enumeration, from the `gpr_queue_type` pg enum. -/
inductive QueueType where
  | rework | backlog
deriving DecidableEq, Repr

/-- Agent status enumeration, from the `gpr_agent_status` pg enum. -/
inductive AgentStatus where
  | active | idle | offline
deriving DecidableEq, Repr

/-- User acceptance status enumeration. -/
inductive UserAcceptanceStatus where
  | notReviewed | reviewedAndAccepted | reviewedAndAskedRework | rejected
deriving DecidableEq, Repr

/-- Job priority enumeration. -/
inductive Priority where
  | low | medium | high
deriving DecidableEq, Repr

/-- UserInput payload (`types.ts`): source, prompt, optional sourceMetadata. -/
structure UserInput where
  source : String
  prompt : String
  sourceMetadata : Option String
deriving DecidableEq, Repr

/-- UserComment payload (`types.ts`): file name, line number, prompt text. -/
structure UserComment where
  fileName : String
  lineNo : Nat
  prompt : String
deriving DecidableEq, Repr

/-- One row of the `jobs` table (primary key `(id, version)`), from `db/schema.ts`. -/
structure JobRow where
  id : String
  version : Nat
  orgId : String
  generatedName : Option String
  generatedDescription : Option String
  status : JobStatus
  priority : Priority
  orderInQueue : Int
  queueType : Option QueueType
  agentId : Option String
  updatedAt : Nat
  createdBy : String
  updatedBy : String
  userInput : Option UserInput
  repoId : Option String
  userComments : Option (List UserComment)
  codeGenerationLogs : Option String
  codeVerificationLogs : Option String
  userAcceptanceStatus : UserAcceptanceStatus
  confidenceScore : Option String
  prLink : Option String
  updates : Option String
deriving DecidableEq, Repr

/-- One row of the `agents` table. -/
structure AgentRow where
  id : String
  orgId : String
  name : String
  status : AgentStatus
  host : String
  ip : Option String
  port : Option Nat
  consecutiveFailures : Nat
  lastActive : Option Nat
  lastStreamConnectedAt : Option Nat
  updatedAt : Nat
deriving DecidableEq, Repr

/-- One row of the `queue_states` table: per (org, queue) pause flag. -/
structure QueueStatusRow where
  orgId : String
  queueType : QueueType
  isPaused : Bool
deriving DecidableEq, Repr

/-- One row of the `api_keys` table (only the fields registration reads). -/
structure ApiKeyRow where
  keyHash : String
  orgId : String
deriving DecidableEq, Repr

/-- One row of the `activities` audit table (fields written by `createActivity`). -/
structure ActivityRow where
  id : String
  orgId : String
  name : String
  jobId : String
  summary : String
  createdBy : String
  updatedBy : String
  codeGenerationLogs : Option String
  verificationLogs : Option String
deriving DecidableEq, Repr

/-- The persistent store: the tables the embedded operations touch. -/
structure St where
  jobs : List JobRow
  agents : List AgentRow
  queueStatus : List QueueStatusRow
  apiKeys : List ApiKeyRow
  activities : List ActivityRow
deriving DecidableEq, Repr

/-- Primary key of a jobs row. -/
def jobKey (r : JobRow) : String × Nat := (r.id, r.version)

/-- Five minutes in milliseconds, the orphan staleness threshold. -/
def fiveMinutesMs : Nat := 5 * 60 * 1000

/-- Row with maximal `version` (first one on ties), the `ORDER BY version DESC
LIMIT 1` projection. -/
def pickMaxVersion : List JobRow → Option JobRow
  | [] => none
  | r :: t =>
      match pickMaxVersion t with
      | none => some r
      | some b => if b.version ≤ r.version then some r else some b

/-- Latest-version lookup: `SELECT ... WHERE id = ? AND org_id = ? ORDER BY version DESC LIMIT 1`. -/
def findLatest (l : List JobRow) (id orgId : String) : Option JobRow :=
  pickMaxVersion (l.filter (fun r => decide (r.id = id ∧ r.orgId = orgId)))

/-- FindFirst with `ORDER BY order_in_queue ASC`: row carrying the minimal
`orderInQueue` (first one on ties). -/
def minByOrder : List JobRow → Option JobRow
  | [] => none
  | r :: t =>
      match minByOrder t with
      | none => some r
      | some b => if r.orderInQueue ≤ b.orderInQueue then some r else some b

/-- Insertion into a list sorted by `orderInQueue` (helper for `sortByOrder`). -/
def insertByOrder (r : JobRow) : List JobRow → List JobRow
  | [] => [r]
  | a :: t =>
      if r.orderInQueue ≤ a.orderInQueue then r :: a :: t else a :: insertByOrder r t

/-- Sorting by `orderInQueue` (models `ORDER BY order_in_queue ASC` on a multi-row result). -/
def sortByOrder : List JobRow → List JobRow
  | [] => []
  | a :: t => insertByOrder a (sortByOrder t)

/-- JS `array.splice(n, 0, a)` semantics: insert at index `n`, appending when `n`
is past the end. -/
def spliceInsert (l : List JobRow) (n : Nat) (a : JobRow) : List JobRow :=
  l.take n ++ a :: l.drop n

/-- Rows of one queue: `WHERE org_id = ? AND status = 'queued' AND queue_type = ?`.
The `qt` argument is an `Option` so the reprioritize handler's
`queue_type IS NULL` branch is the `none` case. -/
def queueFilter (l : List JobRow) (orgId : String) (qt : Option QueueType) : List JobRow :=
  l.filter (fun r => decide (r.orgId = orgId ∧ r.status = .queued ∧ r.queueType = qt))

/-- The `getQueueJobs` helper of `jobs.ts`: queue rows ordered by position. -/
def getQueueJobs (l : List JobRow) (orgId : String) (qt : QueueType) : List JobRow :=
  sortByOrder (queueFilter l orgId (some qt))

/-- The `getNextQueuePosition` helper of `jobs.ts`: count of queue rows. -/
def getNextQueuePosition (l : List JobRow) (orgId : String) (qt : QueueType) : Nat :=
  (getQueueJobs l orgId qt).length

/-- The `reprioritizeQueueAfterRemoval` helper of `jobs.ts`: decrement
`order_in_queue` for every queued row of the queue strictly past the removed
position. -/
def reprioritizeQueueAfterRemoval (l : List JobRow) (orgId : String) (qt : QueueType)
    (removedPosition : Int) (now : Nat) : List JobRow :=
  l.map fun r =>
    if r.orgId = orgId ∧ r.status = .queued ∧ r.queueType = some qt ∧
        removedPosition < r.orderInQueue then
      { r with orderInQueue := r.orderInQueue - 1, updatedAt := now }
    else r

/-- The `removeJobFromQueue` helper of `jobs.ts`: null out the queue fields of
the row keyed by `(id, version, org)`. -/
def removeJobFromQueue (l : List JobRow) (jobId orgId : String) (version : Nat)
    (userId : String) (now : Nat) : List JobRow :=
  l.map fun r =>
    if r.id = jobId ∧ r.version = version ∧ r.orgId = orgId then
      { r with queueType := none, orderInQueue := -1, updatedAt := now, updatedBy := userId }
    else r

/-- Audit-row constructor used by `createActivity` in `jobs.ts` (the routes
always pass no logs; the id is the generated UUID, passed in as a parameter). -/
def mkActivity (actId orgId name jobId summary userId : String) : ActivityRow :=
  ⟨actId, orgId, name, jobId, summary, userId, userId, none, none⟩

/-- The `createActivity` helper of `jobs.ts`: the insert is wrapped in
try/catch, so a failed insert (`ok = false`) leaves the store untouched and
never propagates an error to the caller. -/
def createActivity (s : St) (ok : Bool) (a : ActivityRow) : St :=
  if ok then { s with activities := s.activities ++ [a] } else s

/-! Preprocess activity (`preprocess-activity.ts`). -/

/-- Result record of the preprocess activity. -/
structure PreResult where
  jobId : Option String
  queueType : Option QueueType
  orgId : Option String
deriving DecidableEq, Repr

/-- Selection condition of the orphan scan (step 1 of the preprocess activity):
same org, in-progress, and owned by this agent or stale for over five minutes. -/
def orphanMatches (orgId agentId : String) (now : Nat) (r : JobRow) : Prop :=
  r.orgId = orgId ∧ r.status = .inProgress ∧
    (r.agentId = some agentId ∨ r.updatedAt < now - fiveMinutesMs)

instance (orgId agentId : String) (now : Nat) (r : JobRow) :
    Decidable (orphanMatches orgId agentId now r) :=
  inferInstanceAs (Decidable (r.orgId = orgId ∧ r.status = .inProgress ∧
    (r.agentId = some agentId ∨ r.updatedAt < now - fiveMinutesMs)))

/-- Ids of the rows returned by the orphan scan. -/
def orphanIds (l : List JobRow) (orgId agentId : String) (now : Nat) : List String :=
  (l.filter (fun r => decide (orphanMatches orgId agentId now r))).map (·.id)

/-- The orphan reset loop: each orphan row triggers
`UPDATE jobs SET status='queued', agent_id=NULL, updated_at=now WHERE id = job.id` —
the filter is by id only, so every version row of an orphan id is written. -/
def orphanResetJobs (l : List JobRow) (orgId agentId : String) (now : Nat) : List JobRow :=
  let ids := orphanIds l orgId agentId now
  l.map fun r =>
    if r.id ∈ ids then { r with status := .queued, agentId := none, updatedAt := now }
    else r

/-- Step 2 of the preprocess activity: findFirst of an in-progress job of this
agent (no org filter in the source query). -/
def findInProgress (l : List JobRow) (agentId : String) : Option JobRow :=
  l.find? (fun r => decide (r.agentId = some agentId ∧ r.status = .inProgress))

/-- FindFirst on the `queue_states` table; a missing row counts as not paused. -/
def isPausedIn (qs : List QueueStatusRow) (orgId : String) (qt : QueueType) : Bool :=
  match qs.find? (fun q => decide (q.orgId = orgId ∧ q.queueType = qt)) with
  | some q => q.isPaused
  | none => false

/-- The claim update of the preprocess activity:
`UPDATE jobs SET status='in-progress', agent_id=?, updated_at=now WHERE id = nextJob.id` —
again filtered by id only. -/
def claimJobs (l : List JobRow) (claimedId agentId : String) (now : Nat) : List JobRow :=
  l.map fun r =>
    if r.id = claimedId then
      { r with status := .inProgress, agentId := some agentId, updatedAt := now }
    else r

/-- Step 3 of the preprocess activity: the `for (const queueType of queueTypes)`
loop — skip a paused queue, otherwise claim the row with minimal position. -/
def claimLoop (jobs : List JobRow) (qs : List QueueStatusRow) (orgId agentId : String)
    (now : Nat) : List QueueType → List JobRow × PreResult
  | [] => (jobs, ⟨none, none, some orgId⟩)
  | qt :: rest =>
      if isPausedIn qs orgId qt then claimLoop jobs qs orgId agentId now rest
      else
        match minByOrder (queueFilter jobs orgId (some qt)) with
        | some nextJob =>
            (claimJobs jobs nextJob.id agentId now, ⟨some nextJob.id, some qt, some orgId⟩)
        | none => claimLoop jobs qs orgId agentId now rest

/-- The full `preprocessActivity`: agent lookup and active check, orphan
reconciliation, in-progress heartbeat (agent touch), then the claim loop over
`[rework, backlog]`. -/
def preprocessActivity (s : St) (agentId : String) (now : Nat) : St × PreResult :=
  match s.agents.find? (fun ag => decide (ag.id = agentId)) with
  | none => (s, ⟨none, none, none⟩)
  | some agent =>
      if agent.status ≠ .active then (s, ⟨none, none, none⟩)
      else
        let orgId := agent.orgId
        let jobs1 := orphanResetJobs s.jobs orgId agentId now
        match findInProgress jobs1 agentId with
        | some _ =>
            let agents' := s.agents.map fun ag =>
              if ag.id = agentId then
                { ag with lastActive := some now, consecutiveFailures := 0, updatedAt := now }
              else ag
            ({ s with jobs := jobs1, agents := agents' }, ⟨none, none, some orgId⟩)
        | none =>
            let step := claimLoop jobs1 s.queueStatus orgId agentId now
              [QueueType.rework, QueueType.backlog]
            ({ s with jobs := step.1 }, step.2)

/-! Agent ping activity (`pingAgentViaStream`). -/

/-- Result record of the ping activity. -/
structure PingResult where
  success : Bool
  error : Option String
deriving DecidableEq, Repr

/-- The connection error message of the ping activity. -/
def connErrorMsg : String :=
  "Unable to establish the connection. Please check if the agent is running in the host machine in the port configured."

/-- The `pingAgentViaStream` activity.  The gRPC health-check outcome is the
external parameter `pingOk`; the unsuccessful-response branch and the
thrown-error branch of the source perform the identical database write, so one
boolean captures both. -/
def pingAgentViaStream (s : St) (agentId : String) (pingOk : Bool) (now : Nat) :
    St × PingResult :=
  match s.agents.find? (fun ag => decide (ag.id = agentId)) with
  | none => (s, ⟨false, some "Agent not found"⟩)
  | some agentRecord =>
      if pingOk then
        let agents' := s.agents.map (fun ag =>
          if ag.id = agentId then
            { ag with
                status := .active
                lastActive := some now
                consecutiveFailures := 0
                updatedAt := now }
          else ag)
        ({ s with agents := agents' }, ⟨true, none⟩)
      else
        let agents' := s.agents.map (fun ag =>
          if ag.id = agentId then
            { ag with
                status := .offline
                consecutiveFailures := agentRecord.consecutiveFailures + 1
                updatedAt := now }
          else ag)
        ({ s with agents := agents' }, ⟨false, some connErrorMsg⟩)

/-! Agent registration (`agent-registration-service.ts`). -/

/-- Result record of `registerAgent`. -/
structure RegResult where
  agentId : String
  orgId : String
  success : Bool
  message : String
deriving DecidableEq, Repr

/-- The `registerAgent` service.  `hash` stands for the SHA-256 key hash,
`newAgentId` for the generated UUID, and `hookOk` for the outcome of the
`startAgentSchedules` Temporal hook — which the source wraps in try/catch and
only logs, so it influences neither the store nor the result. -/
def registerAgent (s : St) (hash : String → String) (apiKey hostname ipAddress : String)
    (port : Nat) (newAgentId : String) (hookOk : Bool) (now : Nat) : St × RegResult :=
  let keyHash := hash apiKey
  match s.apiKeys.find? (fun k => decide (k.keyHash = keyHash)) with
  | none => (s, ⟨"", "", false, "Invalid API key"⟩)
  | some storedKey =>
      let orgId := storedKey.orgId
      match s.agents.find? (fun ag => decide (ag.orgId = orgId ∧ ag.host = hostname)) with
      | some agent =>
          let agents' := s.agents.map fun ag =>
            if ag.id = agent.id then
              { ag with
                  ip := some ipAddress
                  port := some port
                  status := .active
                  consecutiveFailures := 0
                  lastActive := some now
                  lastStreamConnectedAt := some now
                  updatedAt := now }
            else ag
          ({ s with agents := agents' }, ⟨agent.id, orgId, true, "Agent updated successfully"⟩)
      | none =>
          let newAgent : AgentRow :=
            ⟨newAgentId, orgId, hostname, .active, hostname, some ipAddress, some port,
              0, some now, some now, now⟩
          ({ s with agents := s.agents ++ [newAgent] },
            ⟨newAgentId, orgId, true, "Agent registered successfully"⟩)

/-! Jobs routes (`jobs.ts`). -/

/-- Request body of `PUT /jobs/:id` (`UpdateJobRequest` in `types.ts`); `none`
everywhere means the field was absent (`undefined`). -/
structure UpdateJobRequest where
  generatedName : Option String
  generatedDescription : Option String
  status : Option JobStatus
  priority : Option Priority
  orderInQueue : Option Int
  userInput : Option UserInput
  repo : Option String
  updatedBy : String
  userComments : Option (List UserComment)
  userAcceptanceStatus : Option UserAcceptanceStatus
  queueType : Option QueueType
deriving DecidableEq, Repr

/-- Responses of the job route handlers: an error status with message, a job
payload (200/201), the no-op reprioritize response, or the 202 of execute. -/
inductive RouteResult where
  | err (code : Nat) (msg : String)
  | ok (row : JobRow)
  | noop (row : JobRow)
  | accepted (jobId : String)
deriving DecidableEq, Repr

/-- JS `String.prototype.trim`, written structurally on the character list so
that it evaluates inside the kernel. -/
def jsTrim (s : String) : String :=
  ⟨((s.data.dropWhile Char.isWhitespace).reverse.dropWhile Char.isWhitespace).reverse⟩

/-- The row carried by an `ok` route response, if any. -/
def rowOf : RouteResult → Option JobRow
  | .ok row => some row
  | _ => none

/-- JS truthiness on a nullable string: the empty string behaves like null. -/
def jsStr (o : Option String) : Option String :=
  match o with
  | some "" => none
  | x => x

/-- Rendering of `new Date().toLocaleString()`; the wall-clock text is opaque,
so the numeric clock is rendered directly. -/
def timestampStr (now : Nat) : String := toString now

/-- Source rendering of a job status (the pg enum literals). -/
def statusStr : JobStatus → String
  | .queued => "queued"
  | .inProgress => "in-progress"
  | .inReview => "in-review"
  | .completed => "completed"
  | .failed => "failed"
  | .archived => "archived"

/-- Retry line with an embedded comment, from the `PUT /jobs/:id` handler. -/
def retryMessageWithComment (now : Nat) (commentText : String) : String :=
  "User retried the job at " ++ timestampStr now ++ " and added a comment: \"" ++
    commentText ++ "\". Job is now waiting to be scheduled in the rework queue."

/-- Retry line without a comment, from the `PUT /jobs/:id` handler. -/
def retryMessagePlain (now : Nat) : String :=
  "User retried the job at " ++ timestampStr now ++
    ". Job is now waiting to be scheduled in the rework queue."

/-- The `user_comments && user_comments.length > (currentJob.userComments?.length || 0)`
check of the PUT handler. -/
def commentsGrew (cur : JobRow) (cs : Option (List UserComment)) : Bool :=
  match cs with
  | some l => decide ((cur.userComments.getD []).length < l.length)
  | none => false

/-- The `updates` line the PUT handler writes for a status change (both the
new-version and the in-place branch build the identical text). -/
def updateMessageFor (cur : JobRow) (st : JobStatus) (qt : Option QueueType)
    (cs : Option (List UserComment)) (now : Nat) : String :=
  match st with
  | .failed => "Job execution failed at " ++ timestampStr now ++ "."
  | .completed => "Job completed successfully at " ++ timestampStr now ++ "."
  | .inReview => "Job moved to review state at " ++ timestampStr now ++ "."
  | .inProgress => "Job execution started at " ++ timestampStr now ++ "."
  | .queued =>
      if qt = some .rework ∧ commentsGrew cur cs then
        match cs with
        | some l =>
            match l.getLast? with
            | some latestComment =>
                let commentText := jsTrim latestComment.prompt
                if commentText ≠ "" ∧ commentText ≠ "No comment provided" then
                  retryMessageWithComment now commentText
                else retryMessagePlain now
            | none => retryMessagePlain now
        | none => "Job queued at " ++ timestampStr now ++ "."
      else "Job queued at " ++ timestampStr now ++ "."
  | .archived =>
      "Job status changed from " ++ statusStr cur.status ++ " to archived at " ++
        timestampStr now ++ "."

/-- The `POST /jobs` handler.  The LLM title generator, the job UUID and the
activity UUID are external inputs.  Activity summaries are abbreviated: no
operation ever reads them back. -/
def createJob (s : St) (orgId userId : String) (userInput : UserInput)
    (repo : Option String) (createdBy : String) (jobId genTitle genDesc actId : String)
    (actOk : Bool) (now : Nat) : St × RouteResult :=
  if userInput.source = "" ∨ userInput.prompt = "" then
    (s, .err 400 "user_input with source and prompt is required")
  else
    let nextBacklogPosition := getNextQueuePosition s.jobs orgId .backlog
    let newJob : JobRow :=
      { id := jobId
        version := 1
        orgId := orgId
        generatedName := some genTitle
        generatedDescription := some genDesc
        status := .queued
        priority := .medium
        orderInQueue := Int.ofNat nextBacklogPosition
        queueType := some .backlog
        agentId := none
        updatedAt := now
        createdBy := createdBy
        updatedBy := createdBy
        userInput := some userInput
        repoId := jsStr repo
        userComments := none
        codeGenerationLogs := none
        codeVerificationLogs := none
        userAcceptanceStatus := .notReviewed
        confidenceScore := none
        prLink := none
        updates := none }
    let s2 := { s with jobs := s.jobs ++ [newJob] }
    let actUser := if createdBy = "" then userId else createdBy
    (createActivity s2 actOk (mkActivity actId orgId "Job Created" jobId "job created" actUser),
      .ok newJob)

/-- The `DELETE /jobs/:id` handler: archive in place on the latest version;
no queue removal, no reprioritization of the remaining rows. -/
def archiveJob (s : St) (id orgId userId : String) (actId : String) (actOk : Bool)
    (now : Nat) : St × RouteResult :=
  match findLatest s.jobs id orgId with
  | none => (s, .err 404 "Job not found")
  | some currentJob =>
      if currentJob.status = .archived then (s, .err 400 "Job is already archived")
      else
        let jobs' := s.jobs.map fun r =>
          if r.id = id ∧ r.version = currentJob.version ∧ r.orgId = orgId then
            { r with status := .archived, updatedAt := now, updatedBy := userId }
          else r
        let s2 := { s with jobs := jobs' }
        (createActivity s2 actOk (mkActivity actId orgId "Job Deleted" id "job archived" userId),
          .ok { currentJob with status := .archived, updatedAt := now, updatedBy := userId })

/-- The `POST /jobs/:id/execute` handler.  `isExecuting` is the external
`jobExecutionService.isExecuting(id)` answer; the Temporal scheduling call has
no database effect and is dropped. -/
def executeJob (s : St) (id orgId userId : String) (isExecuting : Bool) (actId : String)
    (actOk : Bool) (now : Nat) : St × RouteResult :=
  match findLatest s.jobs id orgId with
  | none => (s, .err 404 "Job not found")
  | some job =>
      match job.queueType with
      | none => (s, .err 400 "Job must be in a queue (rework or backlog) to execute")
      | some qt =>
          if job.status ≠ .queued then
            (s, .err 400 "Job must be in a queue (rework or backlog) to execute")
          else if isExecuting then (s, .err 400 "Job is already executing")
          else
            let jobs1 := removeJobFromQueue s.jobs id orgId job.version userId now
            let jobs2 := reprioritizeQueueAfterRemoval jobs1 orgId qt job.orderInQueue now
            let s2 := { s with jobs := jobs2 }
            (createActivity s2 actOk
                (mkActivity actId orgId "Job Execution Started" id "execution started" userId),
              .accepted id)

/-- Effect on one row of the batch of per-row `UPDATE` statements issued by
the reprioritize handler: the entry of `reordered` whose key matches the row
determines the new position (its index `i`); the moved job also gets
`updated_by`, and an entry already at its index is skipped. -/
def reorderRow (reordered : List JobRow) (targetId : String) (targetVer : Nat)
    (orgId userId : String) (now : Nat) (r : JobRow) : JobRow :=
  if r.orgId = orgId then
    match reordered.enum.find? (fun p => decide (p.2.id = r.id ∧ p.2.version = r.version)) with
    | some (i, j) =>
        if j.id = targetId ∧ j.version = targetVer then
          { r with orderInQueue := Int.ofNat i, updatedAt := now, updatedBy := userId }
        else if j.orderInQueue ≠ Int.ofNat i then
          { r with orderInQueue := Int.ofNat i, updatedAt := now }
        else r
    | none => r
  else r

/-- The whole reprioritize update batch, applied to the jobs table. -/
def applyReorder (l : List JobRow) (reordered : List JobRow) (targetId : String)
    (targetVer : Nat) (orgId userId : String) (now : Nat) : List JobRow :=
  l.map (reorderRow reordered targetId targetVer orgId userId now)

/-- The `POST /jobs/:id/reprioritize` handler. -/
def reprioritizeJob (s : St) (id orgId userId : String) (position : Int) (actId : String)
    (actOk : Bool) (now : Nat) : St × RouteResult :=
  if position < 0 then (s, .err 400 "Position must be non-negative")
  else
    match findLatest s.jobs id orgId with
    | none => (s, .err 404 "Job not found")
    | some job =>
        if job.status ≠ .queued then (s, .err 400 "Only queued jobs can be reprioritized")
        else if position = job.orderInQueue then (s, .noop job)
        else
          let allQueueJobs := sortByOrder (queueFilter s.jobs orgId job.queueType)
          let otherJobs :=
            allQueueJobs.filter (fun j => decide (¬(j.id = id ∧ j.version = job.version)))
          let reordered := spliceInsert otherJobs position.toNat job
          let jobs' := applyReorder s.jobs reordered id job.version orgId userId now
          let s2 := { s with jobs := jobs' }
          let updatedJob :=
            match jobs'.find? (fun r => decide (r.id = id ∧ r.version = job.version ∧ r.orgId = orgId)) with
            | some r => r
            | none => job
          (createActivity s2 actOk
              (mkActivity actId orgId "Job Order Changed" id "order changed" userId),
            .ok updatedJob)

/-- The `user_input && user_input.prompt && user_input.prompt !== currentJob.userInput?.prompt`
check of the PUT handler. -/
def promptChangedFor (cur : JobRow) (body : UpdateJobRequest) : Bool :=
  match body.userInput with
  | some ui =>
      !decide (ui.prompt = "") &&
        (match cur.userInput with
          | some cui => !decide (ui.prompt = cui.prompt)
          | none => true)
  | none => false

/-- The retry predicate of the PUT handler: target status queued, target queue
rework, and the comment list grew. -/
def isRetryFor (cur : JobRow) (body : UpdateJobRequest) : Bool :=
  decide (body.status = some .queued) && decide (body.queueType = some .rework) &&
    commentsGrew cur body.userComments

/-- The `needsNewVersion` predicate of the PUT handler.  The source compares
`user_input` by `JSON.stringify`; with payloads normalised the way both the
create and update inserts normalise them, that is structural equality. -/
def needsNewVersionFor (cur : JobRow) (body : UpdateJobRequest) : Bool :=
  (match body.userInput with
    | some ui => decide (some ui ≠ cur.userInput)
    | none => false) ||
  (match body.repo with
    | some r => decide (some r ≠ cur.repoId)
    | none => false) ||
  (decide (body.userAcceptanceStatus = some .reviewedAndAskedRework) &&
    decide (cur.userAcceptanceStatus ≠ .reviewedAndAskedRework)) ||
  isRetryFor cur body

/-- Outcome of the three queue-placement pre-steps of the PUT handler (the
in-review removal, the to-rework transition, the rework-to-backlog transition
and the back-to-queued computation): the jobs table after the removals, the
`reworkOrderInQueue` accumulator, and the `targetQueueType` accumulator. -/
def putPreSteps (s : St) (orgId : String) (currentJob : JobRow) (body : UpdateJobRequest)
    (now : Nat) : List JobRow × Int × Option QueueType :=
  let jobs1 :=
    match currentJob.queueType with
    | some qt =>
        if body.status = some .inReview ∧ currentJob.status = .queued then
          reprioritizeQueueAfterRemoval s.jobs orgId qt currentJob.orderInQueue now
        else s.jobs
    | none => s.jobs
  let condA := body.userAcceptanceStatus = some .reviewedAndAskedRework ∧
    currentJob.userAcceptanceStatus ≠ .reviewedAndAskedRework
  let jobsA :=
    if condA ∧ currentJob.status = .queued ∧ currentJob.queueType = some .backlog then
      reprioritizeQueueAfterRemoval jobs1 orgId .backlog currentJob.orderInQueue now
    else jobs1
  let acc1 : Int × Option QueueType :=
    if condA then (Int.ofNat (getNextQueuePosition jobsA orgId .rework), some QueueType.rework)
    else (currentJob.orderInQueue, none)
  let condB := body.userAcceptanceStatus = some .notReviewed ∧
    currentJob.userAcceptanceStatus = .reviewedAndAskedRework ∧ currentJob.status = .queued
  let jobsB :=
    if condB ∧ currentJob.queueType = some .rework then
      reprioritizeQueueAfterRemoval jobsA orgId .rework currentJob.orderInQueue now
    else jobsA
  let acc2 : Int × Option QueueType :=
    if condB then (Int.ofNat (getNextQueuePosition jobsB orgId .backlog), some QueueType.backlog)
    else acc1
  let condC := body.status = some .queued ∧ currentJob.status ≠ .queued
  let targetQueueC : QueueType :=
    if currentJob.userAcceptanceStatus = .reviewedAndAskedRework then .rework else .backlog
  let acc3 : Int × Option QueueType :=
    if condC then (Int.ofNat (getNextQueuePosition jobsB orgId targetQueueC), some targetQueueC)
    else acc2
  (jobsB, acc3)

/-- Queue placement of the new version row (`newQueueType`, `newOrderInQueue`). -/
def newVersionQueue (jobs2 : List JobRow) (orgId : String) (currentJob : JobRow)
    (body : UpdateJobRequest) (rwPos : Int) (tgt : Option QueueType) :
    Option QueueType × Int :=
  let newStatus := body.status.getD currentJob.status
  if newStatus = .queued then
    match body.queueType with
    | some qt => (some qt, Int.ofNat (getNextQueuePosition jobs2 orgId qt))
    | none =>
        let finalUas := body.userAcceptanceStatus.getD currentJob.userAcceptanceStatus
        let nqt : QueueType := if finalUas = .reviewedAndAskedRework then .rework else .backlog
        (some nqt,
          if tgt.isSome then rwPos else Int.ofNat (getNextQueuePosition jobs2 orgId nqt))
  else if body.status = some .inProgress ∨ body.status = some .inReview then (none, -1)
  else (currentJob.queueType, currentJob.orderInQueue)

/-- The new row inserted by the new-version branch of the PUT handler. -/
def mkNewVersionRow (jobs2 : List JobRow) (id orgId : String) (currentJob : JobRow)
    (body : UpdateJobRequest) (genTitle genDesc : String) (rwPos : Int)
    (tgt : Option QueueType) (now : Nat) : JobRow :=
  let promptChanged := promptChangedFor currentJob body
  let isRetry := isRetryFor currentJob body
  let newStatus := body.status.getD currentJob.status
  let nq := newVersionQueue jobs2 orgId currentJob body rwPos tgt
  let newUpdates : Option String :=
    match body.status with
    | some st =>
        if st ≠ currentJob.status then
          let msg := updateMessageFor currentJob st body.queueType body.userComments now
          some
            (match jsStr currentJob.updates with
              | some old => old ++ "\n" ++ msg
              | none => msg)
        else currentJob.updates
    | none => currentJob.updates
  { id := id
    version := currentJob.version + 1
    orgId := currentJob.orgId
    generatedName :=
      match body.generatedName with
      | some v => some v
      | none => if promptChanged then some genTitle else currentJob.generatedName
    generatedDescription :=
      match body.generatedDescription with
      | some v => some v
      | none => if promptChanged then some genDesc else currentJob.generatedDescription
    status := newStatus
    priority := body.priority.getD currentJob.priority
    orderInQueue :=
      match body.orderInQueue with
      | some o => o
      | none => nq.2
    queueType := nq.1
    agentId := none
    updatedAt := now
    createdBy := currentJob.createdBy
    updatedBy := body.updatedBy
    userInput :=
      match body.userInput with
      | some ui => some ui
      | none => currentJob.userInput
    repoId :=
      match body.repo with
      | some r => some r
      | none => currentJob.repoId
    userComments :=
      match body.userComments with
      | some cs => some cs
      | none => currentJob.userComments
    codeGenerationLogs := if isRetry then none else currentJob.codeGenerationLogs
    codeVerificationLogs := if isRetry then none else currentJob.codeVerificationLogs
    userAcceptanceStatus := body.userAcceptanceStatus.getD currentJob.userAcceptanceStatus
    confidenceScore := currentJob.confidenceScore
    prLink := currentJob.prLink
    updates := newUpdates }

/-- The in-place `updateData` of the PUT handler, as a row transformer; field
assignments are composed in source order, later assignments overriding
earlier ones. -/
def applyInPlaceUpdate (jobs2 : List JobRow) (orgId : String) (currentJob : JobRow)
    (body : UpdateJobRequest) (genTitle genDesc : String) (rwPos : Int)
    (tgt : Option QueueType) (now : Nat) (r : JobRow) : JobRow :=
  let promptChanged := promptChangedFor currentJob body
  let r0 := { r with updatedBy := body.updatedBy, updatedAt := now }
  let r1 :=
    if promptChanged then
      { r0 with
          generatedName := some (body.generatedName.getD genTitle)
          generatedDescription := some (body.generatedDescription.getD genDesc) }
    else
      let ra :=
        match body.generatedName with
        | some v => { r0 with generatedName := some v }
        | none => r0
      match body.generatedDescription with
      | some v => { ra with generatedDescription := some v }
      | none => ra
  let r2 :=
    match body.status with
    | none => r1
    | some st =>
        let ru := { r1 with status := st }
        let rq :=
          if st = .inProgress ∨ st = .inReview then
            { ru with queueType := none, orderInQueue := -1 }
          else if st = .queued then
            match body.queueType with
            | some qt =>
                { ru with
                    queueType := some qt
                    orderInQueue := Int.ofNat (getNextQueuePosition jobs2 orgId qt) }
            | none =>
                match tgt with
                | some tq => { ru with queueType := some tq, orderInQueue := rwPos }
                | none =>
                    let finalUas := body.userAcceptanceStatus.getD currentJob.userAcceptanceStatus
                    let qt : QueueType :=
                      if finalUas = .reviewedAndAskedRework then .rework else .backlog
                    { ru with
                        queueType := some qt
                        orderInQueue := Int.ofNat (getNextQueuePosition jobs2 orgId qt) }
          else ru
        if st ≠ currentJob.status then
          let msg := updateMessageFor currentJob st body.queueType body.userComments now
          { rq with
              updates := some
                (match jsStr currentJob.updates with
                  | some old => msg ++ "\n" ++ old
                  | none => msg) }
        else rq
  let r3 :=
    match body.priority with
    | some p => { r2 with priority := p }
    | none => r2
  let r4 :=
    match body.orderInQueue with
    | some o => { r3 with orderInQueue := o }
    | none => r3
  let r5 :=
    match body.userComments with
    | some cs => { r4 with userComments := some cs }
    | none => r4
  match body.userAcceptanceStatus with
  | none => r5
  | some uas =>
      let r6 := { r5 with userAcceptanceStatus := uas }
      if tgt ≠ none ∧ currentJob.status = .queued then
        match tgt with
        | some tq => { r6 with queueType := some tq, orderInQueue := rwPos }
        | none => r6
      else r6

/-- The `PUT /jobs/:id` handler.  `genTitle`/`genDesc` stand for the external
LLM title generator output, `actId` for the activity UUID, `actOk` for the
activity insert outcome. -/
def putJob (s : St) (id orgId userId : String) (body : UpdateJobRequest)
    (genTitle genDesc actId : String) (actOk : Bool) (now : Nat) : St × RouteResult :=
  match findLatest s.jobs id orgId with
  | none => (s, .err 404 "Job not found")
  | some currentJob =>
      if body.status = some .inProgress ∧ currentJob.status = .queued then
        (s, .err 400 "Cannot move job from queue to in-progress. Queue jobs are processed automatically by the system.")
      else
        let pre := putPreSteps s orgId currentJob body now
        let jobs2 := pre.1
        let rwPos := pre.2.1
        let tgt := pre.2.2
        if needsNewVersionFor currentJob body then
          let newJob := mkNewVersionRow jobs2 id orgId currentJob body genTitle genDesc
            rwPos tgt now
          let s2 := { s with jobs := jobs2 ++ [newJob] }
          (createActivity s2 actOk (mkActivity actId orgId "Job Updated" id "job updated" userId),
            .ok newJob)
        else
          let jobs3 := jobs2.map fun r =>
            if r.id = id ∧ r.version = currentJob.version ∧ r.orgId = orgId then
              applyInPlaceUpdate jobs2 orgId currentJob body genTitle genDesc rwPos tgt now r
            else r
          let s2 := { s with jobs := jobs3 }
          let updatedJob :=
            match jobs3.find? (fun r => decide (r.id = id ∧ r.version = currentJob.version ∧ r.orgId = orgId)) with
            | some r => r
            | none => currentJob
          (createActivity s2 actOk (mkActivity actId orgId "Job Updated" id "job updated" userId),
            .ok updatedJob)

/-! Derived predicates used by the claims. -/

/-- Well-formedness of the jobs table: the primary key `(id, version)` is not
duplicated. -/
def WF (l : List JobRow) : Prop := (l.map jobKey).Nodup

instance (l : List JobRow) : Decidable (WF l) :=
  inferInstanceAs (Decidable ((l.map jobKey).Nodup))

/-- A row is a latest-version row of its job id within the table. -/
def isLatest (l : List JobRow) (r : JobRow) : Prop :=
  ∀ r' ∈ l, r'.id = r.id → r'.version ≤ r.version

instance (l : List JobRow) (r : JobRow) : Decidable (isLatest l r) :=
  inferInstanceAs (Decidable (∀ r' ∈ l, r'.id = r.id → r'.version ≤ r.version))

/-- Positions of the latest-version queued rows of one `(org, queue)`. -/
def queuePositions (l : List JobRow) (orgId : String) (qt : QueueType) : List Int :=
  (l.filter (fun r =>
    decide (isLatest l r ∧ r.orgId = orgId ∧ r.status = .queued ∧ r.queueType = some qt))).map
    (·.orderInQueue)

/-- Property P1: the positions of one `(org, queue)` are exactly the contiguous
range `0 .. n-1`, without duplicates. -/
def ContiguousPositions (l : List JobRow) (orgId : String) (qt : QueueType) : Prop :=
  List.Perm (queuePositions l orgId qt)
    ((List.range (queuePositions l orgId qt).length).map Int.ofNat)

instance (l : List JobRow) (orgId : String) (qt : QueueType) :
    Decidable (ContiguousPositions l orgId qt) :=
  inferInstanceAs (Decidable (List.Perm (queuePositions l orgId qt)
    ((List.range (queuePositions l orgId qt).length).map Int.ofNat)))

/-- All in-progress rows carrying one agent id belong to one job id. -/
def SingleDispatch (l : List JobRow) : Prop :=
  ∀ r1 ∈ l, ∀ r2 ∈ l, r1.status = .inProgress → r2.status = .inProgress →
    r1.agentId.isSome → r1.agentId = r2.agentId → r1.id = r2.id

instance (l : List JobRow) : Decidable (SingleDispatch l) :=
  inferInstanceAs (Decidable (∀ r1 ∈ l, ∀ r2 ∈ l, r1.status = .inProgress →
    r2.status = .inProgress → r1.agentId.isSome → r1.agentId = r2.agentId → r1.id = r2.id))

/-- Property P2 as the claim states it: at most one latest-version row is
in-progress for any one agent. -/
def LatestSingleDispatch (l : List JobRow) : Prop :=
  ∀ r1 ∈ l, ∀ r2 ∈ l, isLatest l r1 → isLatest l r2 → r1.status = .inProgress →
    r2.status = .inProgress → r1.agentId.isSome → r1.agentId = r2.agentId → r1 = r2

instance (l : List JobRow) : Decidable (LatestSingleDispatch l) :=
  inferInstanceAs (Decidable (∀ r1 ∈ l, ∀ r2 ∈ l, isLatest l r1 → isLatest l r2 →
    r1.status = .inProgress → r2.status = .inProgress → r1.agentId.isSome →
    r1.agentId = r2.agentId → r1 = r2))

/-- Frame property of claim C9 as stated: a mutation step from `before` to
`after` (same table shape) may modify latest-version rows only. -/
def OnlyLatestModified (before after : List JobRow) : Prop :=
  before.length = after.length ∧
    ∀ p ∈ before.zip after, p.1 ≠ p.2 → isLatest before p.1

instance (before after : List JobRow) : Decidable (OnlyLatestModified before after) :=
  inferInstanceAs (Decidable (before.length = after.length ∧
    ∀ p ∈ before.zip after, p.1 ≠ p.2 → isLatest before p.1))

/-- Frame property of claim C3 as stated: rows not matching the orphan
condition are left unchanged by the orphan reset. -/
def OrphanFrameClaim (l : List JobRow) (orgId agentId : String) (now : Nat) : Prop :=
  ∀ p ∈ l.zip (orphanResetJobs l orgId agentId now),
    ¬ orphanMatches orgId agentId now p.1 → p.2 = p.1

instance (l : List JobRow) (orgId agentId : String) (now : Nat) :
    Decidable (OrphanFrameClaim l orgId agentId now) :=
  inferInstanceAs (Decidable (∀ p ∈ l.zip (orphanResetJobs l orgId agentId now),
    ¬ orphanMatches orgId agentId now p.1 → p.2 = p.1))

/-! Concrete fixtures used by counterexamples and witnesses. -/

/-- A baseline job row; fixtures override the relevant fields. -/
def baseRow : JobRow :=
  { id := "j"
    version := 1
    orgId := "o"
    generatedName := none
    generatedDescription := none
    status := .queued
    priority := .medium
    orderInQueue := 0
    queueType := some .backlog
    agentId := none
    updatedAt := 0
    createdBy := "u"
    updatedBy := "u"
    userInput := none
    repoId := none
    userComments := none
    codeGenerationLogs := none
    codeVerificationLogs := none
    userAcceptanceStatus := .notReviewed
    confidenceScore := none
    prLink := none
    updates := none }

/-- A baseline agent row. -/
def baseAgent : AgentRow :=
  { id := "a"
    orgId := "o"
    name := "host1"
    status := .active
    host := "host1"
    ip := none
    port := none
    consecutiveFailures := 0
    lastActive := none
    lastStreamConnectedAt := none
    updatedAt := 0 }

/-- A baseline empty store. -/
def baseSt : St := ⟨[], [], [], [], []⟩

/-- An empty PUT body; fixtures override the relevant fields. -/
def emptyBody : UpdateJobRequest :=
  { generatedName := none
    generatedDescription := none
    status := none
    priority := none
    orderInQueue := none
    userInput := none
    repo := none
    updatedBy := "u"
    userComments := none
    userAcceptanceStatus := none
    queueType := none }

/-- State for the C1 failing input: two queued backlog jobs at positions 0 and 1. -/
def c1State : St :=
  { baseSt with jobs := [
      { baseRow with id := "jA", orderInQueue := 0 },
      { baseRow with id := "jB", orderInQueue := 1 }] }

/-- State for the C5 failing input: a single active agent with zero failures. -/
def c5State : St := { baseSt with agents := [baseAgent] }

/-- State for the C3 counterexample: job `j` has an old completed version row
and a latest in-progress version row claimed by agent `a`. -/
def c3Jobs : List JobRow :=
  [{ baseRow with
      id := "j"
      version := 1
      status := .completed
      queueType := none
      orderInQueue := -1
      updatedAt := 1000 },
   { baseRow with
      id := "j"
      version := 2
      status := .inProgress
      agentId := some "a"
      orderInQueue := 0
      updatedAt := 1000 }]

/-- An in-progress row owned by agent `a` (C3 witness input). -/
def c3wRow : JobRow :=
  { baseRow with status := .inProgress, agentId := some "a", updatedAt := 500 }

/-- The orphan reset of `c3wRow` at time 1000. -/
def c3wReset : JobRow :=
  { c3wRow with status := .queued, agentId := none, updatedAt := 1000 }

/-- State for the C9 counterexample: one job with two queued version rows, and
an active agent. -/
def c9State : St :=
  { baseSt with
      jobs := [
        { baseRow with id := "j", version := 1, orderInQueue := 0 },
        { baseRow with id := "j", version := 2, orderInQueue := 1 }]
      agents := [baseAgent] }

/-- The zip pair archiving produces for job `jA` of `c1State` (C9 witness). -/
def c9wPair : JobRow × JobRow :=
  ({ baseRow with id := "jA", orderInQueue := 0 },
   { baseRow with id := "jA", orderInQueue := 0, status := .archived, updatedAt := 1000 })

/-- Store with one API key, for the C8 witness. -/
def c8State : St := { baseSt with apiKeys := [⟨"key#h", "o"⟩] }

/-- Store with one queued backlog job and an active agent, for the C2 witness. -/
def c2State : St :=
  { baseSt with jobs := [{ baseRow with id := "j1" }], agents := [baseAgent] }

/-- Store with two queued backlog jobs and an active agent (C4 counterexample start). -/
def c4State : St :=
  { baseSt with
      jobs := [
        { baseRow with id := "j1", orderInQueue := 0 },
        { baseRow with id := "j2", orderInQueue := 1 }]
      agents := [baseAgent] }

/-- Four public operations: the agent claims `j1`, a PUT marks `j1` completed
(in place, leaving `agent_id` set), the agent claims `j2`, and a PUT moves
`j1` back to in-progress (in place, never touching `agent_id`). -/
def c4Chain : St :=
  let s1 := (preprocessActivity c4State "a" 1000).1
  let s2 := (putJob s1 "j1" "o" "u" { emptyBody with status := some .completed }
    "t" "d" "act1" true 2000).1
  let s3 := (preprocessActivity s2 "a" 3000).1
  (putJob s3 "j1" "o" "u" { emptyBody with status := some .inProgress }
    "t" "d" "act2" true 4000).1

/-- Store whose only job is an in-progress row of another org claimed by `a`
(C4 witness for the heartbeat branch). -/
def c4hbState : St :=
  { baseSt with
      jobs := [{ baseRow with
        id := "jx"
        orgId := "o2"
        status := .inProgress
        agentId := some "a" }]
      agents := [baseAgent] }

/-- A stand-in for the SHA-256 hash in the C8 witness. -/
def c8Hash (s : String) : String := s ++ "#h"

/-- Already-queued rework job with no comments (C6 counterexample current row). -/
def c6cRow : JobRow := { baseRow with id := "j", queueType := some .rework }

/-- Store holding only `c6cRow`. -/
def c6cState : St := { baseSt with jobs := [c6cRow] }

/-- A retry body: status queued, queue rework, one new comment. -/
def c6cBody : UpdateJobRequest :=
  { emptyBody with
      status := some .queued
      queueType := some .rework
      userComments := some [⟨"f.ts", 1, "fix it"⟩] }

/-- Failed job awaiting rework (C6 witness current row). -/
def c6wRow : JobRow :=
  { baseRow with
      id := "j"
      status := .failed
      queueType := none
      orderInQueue := -1
      userAcceptanceStatus := .reviewedAndAskedRework }

/-- Store holding only `c6wRow`. -/
def c6wState : St := { baseSt with jobs := [c6wRow] }

/-- Target row for the C7 counterexample and witness: a queued backlog job at
position 1. -/
def c7TargetRow : JobRow := { baseRow with id := "jA", orderInQueue := 1 }

/-- State for the C7 counterexample and witness: two queued backlog jobs at
positions 0 and 1. -/
def c7State : St :=
  { baseSt with jobs := [
      { baseRow with id := "jB", orderInQueue := 0 },
      c7TargetRow] }

/-! Shared lemmas about the list helpers. -/

theorem zip_map_self {α : Type} (f : α → α) :
    ∀ l : List α, l.zip (l.map f) = l.map (fun x => (x, f x))
  | [] => rfl
  | x :: t => by simp [List.zip_cons_cons, zip_map_self f t]

theorem pickMaxVersion_none_iff (l : List JobRow) : pickMaxVersion l = none ↔ l = [] := by
  cases l with
  | nil => simp [pickMaxVersion]
  | cons r t =>
      cases hp : pickMaxVersion t with
      | none => simp [pickMaxVersion, hp]
      | some b => simp only [pickMaxVersion, hp]; split <;> simp

theorem pickMaxVersion_mem {l : List JobRow} {b : JobRow}
    (h : pickMaxVersion l = some b) : b ∈ l := by
  induction l generalizing b with
  | nil => simp [pickMaxVersion] at h
  | cons r t ih =>
      cases hp : pickMaxVersion t with
      | none =>
          simp only [pickMaxVersion, hp] at h
          injection h with h; exact h ▸ List.mem_cons_self r t
      | some b' =>
          simp only [pickMaxVersion, hp] at h
          split at h
          · injection h with h; exact h ▸ List.mem_cons_self r t
          · injection h with h; exact h ▸ List.mem_cons_of_mem r (ih hp)

theorem pickMaxVersion_max {l : List JobRow} {b : JobRow}
    (h : pickMaxVersion l = some b) : ∀ r ∈ l, r.version ≤ b.version := by
  induction l generalizing b with
  | nil => simp [pickMaxVersion] at h
  | cons r t ih =>
      intro x hx
      cases hp : pickMaxVersion t with
      | none =>
          simp only [pickMaxVersion, hp] at h
          injection h with h
          rcases List.mem_cons.mp hx with hx | hx
          · exact hx ▸ h ▸ le_refl _
          · rw [pickMaxVersion_none_iff] at hp; rw [hp] at hx; simp at hx
      | some b' =>
          simp only [pickMaxVersion, hp] at h
          rcases List.mem_cons.mp hx with hx | hx
          · subst hx
            split at h
            · injection h with h; exact h ▸ le_refl _
            · injection h with h
              rename_i hvt
              exact le_of_lt (h ▸ lt_of_not_le hvt)
          · have hb' := ih hp x hx
            split at h
            · injection h with h
              rename_i hvt
              exact le_trans hb' (h ▸ hvt)
            · injection h with h; exact h ▸ hb'

theorem minByOrder_none_iff (l : List JobRow) : minByOrder l = none ↔ l = [] := by
  cases l with
  | nil => simp [minByOrder]
  | cons r t =>
      cases hp : minByOrder t with
      | none => simp [minByOrder, hp]
      | some b => simp only [minByOrder, hp]; split <;> simp

theorem minByOrder_mem {l : List JobRow} {b : JobRow}
    (h : minByOrder l = some b) : b ∈ l := by
  induction l generalizing b with
  | nil => simp [minByOrder] at h
  | cons r t ih =>
      cases hp : minByOrder t with
      | none =>
          simp only [minByOrder, hp] at h
          injection h with h; exact h ▸ List.mem_cons_self r t
      | some b' =>
          simp only [minByOrder, hp] at h
          split at h
          · injection h with h; exact h ▸ List.mem_cons_self r t
          · injection h with h; exact h ▸ List.mem_cons_of_mem r (ih hp)

theorem minByOrder_min {l : List JobRow} {b : JobRow}
    (h : minByOrder l = some b) : ∀ r ∈ l, b.orderInQueue ≤ r.orderInQueue := by
  induction l generalizing b with
  | nil => simp [minByOrder] at h
  | cons r t ih =>
      intro x hx
      cases hp : minByOrder t with
      | none =>
          simp only [minByOrder, hp] at h
          injection h with h
          rcases List.mem_cons.mp hx with hx | hx
          · exact hx ▸ h ▸ le_refl _
          · rw [minByOrder_none_iff] at hp; rw [hp] at hx; simp at hx
      | some b' =>
          simp only [minByOrder, hp] at h
          rcases List.mem_cons.mp hx with hx | hx
          · subst hx
            split at h
            · injection h with h; exact h ▸ le_refl _
            · injection h with h
              rename_i hvt
              exact le_of_lt (h ▸ lt_of_not_le hvt)
          · have hb' := ih hp x hx
            split at h
            · injection h with h
              rename_i hvt
              exact le_trans (h ▸ hvt) hb'
            · injection h with h; exact h ▸ hb'

theorem findLatest_spec {l : List JobRow} {id orgId : String} {cur : JobRow}
    (h : findLatest l id orgId = some cur) :
    cur ∈ l ∧ cur.id = id ∧ cur.orgId = orgId ∧
      ∀ r' ∈ l, r'.id = id → r'.orgId = orgId → r'.version ≤ cur.version := by
  have hmem := pickMaxVersion_mem h
  have hmax := pickMaxVersion_max h
  rw [List.mem_filter] at hmem
  have hpred := of_decide_eq_true hmem.2
  refine ⟨hmem.1, hpred.1, hpred.2, ?_⟩
  intro r' hr' hid horg
  exact hmax r' (List.mem_filter.mpr ⟨hr', decide_eq_true ⟨hid, horg⟩⟩)

theorem mem_zip_self {α : Type} :
    ∀ {l : List α} {p : α × α}, p ∈ l.zip l → p.1 = p.2
  | x :: t, p, hp => by
      rcases List.mem_cons.mp hp with h | h
      · rw [h]
      · exact mem_zip_self h

theorem createActivity_jobs (s : St) (ok : Bool) (a : ActivityRow) :
    (createActivity s ok a).jobs = s.jobs := by
  unfold createActivity; split <;> rfl

theorem createActivity_agents (s : St) (ok : Bool) (a : ActivityRow) :
    (createActivity s ok a).agents = s.agents := by
  unfold createActivity; split <;> rfl

theorem claimLoop_cases (qts : List QueueType) (jobs : List JobRow)
    (qs : List QueueStatusRow) (orgId agentId : String) (now : Nat) :
    ((claimLoop jobs qs orgId agentId now qts).1 = jobs ∧
      (claimLoop jobs qs orgId agentId now qts).2 = ⟨none, none, some orgId⟩) ∨
    (∃ cid qt r, minByOrder (queueFilter jobs orgId (some qt)) = some r ∧ r.id = cid ∧
      (claimLoop jobs qs orgId agentId now qts).2 = ⟨some cid, some qt, some orgId⟩ ∧
      (claimLoop jobs qs orgId agentId now qts).1 = claimJobs jobs cid agentId now) := by
  induction qts with
  | nil => exact Or.inl ⟨rfl, rfl⟩
  | cons qt rest ih =>
      by_cases hpause : isPausedIn qs orgId qt
      · simpa [claimLoop, hpause] using ih
      · cases hmin : minByOrder (queueFilter jobs orgId (some qt)) with
        | none => simpa [claimLoop, hpause, hmin] using ih
        | some nextJob =>
            exact Or.inr ⟨nextJob.id, qt, nextJob, hmin, rfl, by simp [claimLoop, hpause, hmin],
              by simp [claimLoop, hpause, hmin]⟩

theorem putPreSteps_frame (s : St) (orgId : String) (cur : JobRow)
    (body : UpdateJobRequest) (now : Nat) (hst : body.status ≠ some .inReview)
    (huas : body.userAcceptanceStatus = none) :
    (putPreSteps s orgId cur body now).1 = s.jobs := by
  have h1 : ¬(body.status = some JobStatus.inReview ∧ cur.status = JobStatus.queued) :=
    fun h => hst h.1
  unfold putPreSteps
  cases hq : cur.queueType <;> simp [huas, h1]

theorem preprocess_cases (s : St) (agentId : String) (now : Nat) :
    (preprocessActivity s agentId now).1.jobs = s.jobs ∨
    (∃ agent, s.agents.find? (fun ag => decide (ag.id = agentId)) = some agent ∧
      agent.status = .active ∧
      ((preprocessActivity s agentId now).1.jobs =
          orphanResetJobs s.jobs agent.orgId agentId now ∨
        (findInProgress (orphanResetJobs s.jobs agent.orgId agentId now) agentId = none ∧
          ∃ cid, (preprocessActivity s agentId now).2.jobId = some cid ∧
          (preprocessActivity s agentId now).1.jobs =
            claimJobs (orphanResetJobs s.jobs agent.orgId agentId now) cid agentId now))) := by
  unfold preprocessActivity
  cases hag : s.agents.find? (fun ag => decide (ag.id = agentId)) with
  | none => exact Or.inl rfl
  | some agent =>
      dsimp only
      by_cases hact : agent.status ≠ .active
      · rw [if_pos hact]; exact Or.inl rfl
      · rw [if_neg hact]
        push_neg at hact
        cases hfip : findInProgress (orphanResetJobs s.jobs agent.orgId agentId now) agentId with
        | some j => exact Or.inr ⟨agent, rfl, hact, Or.inl rfl⟩
        | none =>
            rcases claimLoop_cases [QueueType.rework, QueueType.backlog]
                (orphanResetJobs s.jobs agent.orgId agentId now) s.queueStatus
                agent.orgId agentId now with
              h | ⟨cid, qt, r, hmin, hid, hres, hjobs⟩
            · exact Or.inr ⟨agent, rfl, hact, Or.inl h.1⟩
            · exact Or.inr ⟨agent, rfl, hact, Or.inr ⟨hfip, cid, by rw [hres], by rw [hjobs]⟩⟩

theorem orphanReset_ne_imp {l : List JobRow} {orgId agentId : String} {now : Nat}
    {x : JobRow}
    (h : (if x.id ∈ orphanIds l orgId agentId now then
      { x with status := .queued, agentId := none, updatedAt := now } else x) ≠ x) :
    ∃ r' ∈ l, r'.id = x.id ∧ r'.status = .inProgress := by
  by_cases hm : x.id ∈ orphanIds l orgId agentId now
  · obtain ⟨r', hr', hid⟩ := List.mem_map.mp hm
    have hr'l := List.mem_filter.mp hr'
    exact ⟨r', hr'l.1, hid, (of_decide_eq_true hr'l.2).2.1⟩
  · exact absurd (if_neg hm) h

theorem claimLoop2_spec (jobs : List JobRow) (qs : List QueueStatusRow)
    (orgId agentId : String) (now : Nat) :
    (¬ isPausedIn qs orgId .rework = true →
      queueFilter jobs orgId (some .rework) ≠ [] →
      (claimLoop jobs qs orgId agentId now [.rework, .backlog]).2.queueType = some .rework ∧
        (claimLoop jobs qs orgId agentId now [.rework, .backlog]).2.jobId.isSome = true) ∧
    ((isPausedIn qs orgId .rework = true ∨ queueFilter jobs orgId (some .rework) = []) →
      ¬ isPausedIn qs orgId .backlog = true →
      queueFilter jobs orgId (some .backlog) ≠ [] →
      (claimLoop jobs qs orgId agentId now [.rework, .backlog]).2.queueType = some .backlog ∧
        (claimLoop jobs qs orgId agentId now [.rework, .backlog]).2.jobId.isSome = true) ∧
    (∀ cid qt,
      (claimLoop jobs qs orgId agentId now [.rework, .backlog]).2 =
          ⟨some cid, some qt, some orgId⟩ →
      (∃ r ∈ queueFilter jobs orgId (some qt), r.id = cid ∧
        ∀ r' ∈ queueFilter jobs orgId (some qt), r.orderInQueue ≤ r'.orderInQueue) ∧
        (claimLoop jobs qs orgId agentId now [.rework, .backlog]).1 =
          claimJobs jobs cid agentId now) ∧
    ((isPausedIn qs orgId .rework = true ∨ queueFilter jobs orgId (some .rework) = []) →
      (isPausedIn qs orgId .backlog = true ∨ queueFilter jobs orgId (some .backlog) = []) →
      (claimLoop jobs qs orgId agentId now [.rework, .backlog]).2 =
          ⟨none, none, some orgId⟩ ∧
        (claimLoop jobs qs orgId agentId now [.rework, .backlog]).1 = jobs) := by
  by_cases hpr : isPausedIn qs orgId .rework
  · by_cases hpb : isPausedIn qs orgId .backlog
    · have hcl : claimLoop jobs qs orgId agentId now [.rework, .backlog] =
          (jobs, ⟨none, none, some orgId⟩) := by
        simp [claimLoop, hpr, hpb]
      rw [hcl]
      exact ⟨fun h => absurd hpr h, fun _ h => absurd hpb h, fun cid qt h => by simp at h,
        fun _ _ => ⟨rfl, rfl⟩⟩
    · cases hmb : minByOrder (queueFilter jobs orgId (some .backlog)) with
      | none =>
          have hbe : queueFilter jobs orgId (some .backlog) = [] :=
            (minByOrder_none_iff _).mp hmb
          have hcl : claimLoop jobs qs orgId agentId now [.rework, .backlog] =
              (jobs, ⟨none, none, some orgId⟩) := by
            simp [claimLoop, hpr, hpb, hmb]
          rw [hcl]
          exact ⟨fun h => absurd hpr h, fun _ _ h => absurd hbe h, fun cid qt h => by simp at h,
            fun _ _ => ⟨rfl, rfl⟩⟩
      | some r =>
          have hcl : claimLoop jobs qs orgId agentId now [.rework, .backlog] =
              (claimJobs jobs r.id agentId now, ⟨some r.id, some .backlog, some orgId⟩) := by
            simp [claimLoop, hpr, hpb, hmb]
          rw [hcl]
          refine ⟨fun h => absurd hpr h, fun _ _ _ => ⟨rfl, rfl⟩, ?_, ?_⟩
          · intro cid qt h
            injection h with h1 h2
            injection h1 with h1
            injection h2 with h2
            subst h1; subst h2
            exact ⟨⟨r, minByOrder_mem hmb, rfl, minByOrder_min hmb⟩, rfl⟩
          · rintro - (hb | hb)
            · exact absurd hb hpb
            · rw [hb] at hmb; cases hmb
  · cases hmr : minByOrder (queueFilter jobs orgId (some .rework)) with
    | some r =>
        have hcl : claimLoop jobs qs orgId agentId now [.rework, .backlog] =
            (claimJobs jobs r.id agentId now, ⟨some r.id, some .rework, some orgId⟩) := by
          simp [claimLoop, hpr, hmr]
        rw [hcl]
        refine ⟨fun _ _ => ⟨rfl, rfl⟩, ?_, ?_, ?_⟩
        · rintro (h | h)
          · exact absurd h hpr
          · rw [h] at hmr; cases hmr
        · intro cid qt h
          injection h with h1 h2
          injection h1 with h1
          injection h2 with h2
          subst h1; subst h2
          exact ⟨⟨r, minByOrder_mem hmr, rfl, minByOrder_min hmr⟩, rfl⟩
        · rintro (h | h) _
          · exact absurd h hpr
          · rw [h] at hmr; cases hmr
    | none =>
        have hre : queueFilter jobs orgId (some .rework) = [] :=
          (minByOrder_none_iff _).mp hmr
        by_cases hpb : isPausedIn qs orgId .backlog
        · have hcl : claimLoop jobs qs orgId agentId now [.rework, .backlog] =
              (jobs, ⟨none, none, some orgId⟩) := by
            simp [claimLoop, hpr, hpb, hmr]
          rw [hcl]
          exact ⟨fun _ h => absurd hre h, fun _ h => absurd hpb h, fun cid qt h => by simp at h,
            fun _ _ => ⟨rfl, rfl⟩⟩
        · cases hmb : minByOrder (queueFilter jobs orgId (some .backlog)) with
          | none =>
              have hbe : queueFilter jobs orgId (some .backlog) = [] :=
                (minByOrder_none_iff _).mp hmb
              have hcl : claimLoop jobs qs orgId agentId now [.rework, .backlog] =
                  (jobs, ⟨none, none, some orgId⟩) := by
                simp [claimLoop, hpr, hpb, hmr, hmb]
              rw [hcl]
              exact ⟨fun _ h => absurd hre h, fun _ _ h => absurd hbe h,
                fun cid qt h => by simp at h, fun _ _ => ⟨rfl, rfl⟩⟩
          | some r =>
              have hcl : claimLoop jobs qs orgId agentId now [.rework, .backlog] =
                  (claimJobs jobs r.id agentId now, ⟨some r.id, some .backlog, some orgId⟩) := by
                simp [claimLoop, hpr, hpb, hmr, hmb]
              rw [hcl]
              refine ⟨fun _ h => absurd hre h, fun _ _ _ => ⟨rfl, rfl⟩, ?_, ?_⟩
              · intro cid qt h
                injection h with h1 h2
                injection h1 with h1
                injection h2 with h2
                subst h1; subst h2
                exact ⟨⟨r, minByOrder_mem hmb, rfl, minByOrder_min hmb⟩, rfl⟩
              · rintro - (hb | hb)
                · exact absurd hb hpb
                · rw [hb] at hmb; cases hmb


theorem preprocess_claim_branch (s : St) (agentId : String) (now : Nat) (agent : AgentRow)
    (hag : s.agents.find? (fun ag => decide (ag.id = agentId)) = some agent)
    (hact : agent.status = .active)
    (hfip : findInProgress (orphanResetJobs s.jobs agent.orgId agentId now) agentId = none) :
    (preprocessActivity s agentId now).1.jobs =
      (claimLoop (orphanResetJobs s.jobs agent.orgId agentId now) s.queueStatus
        agent.orgId agentId now [.rework, .backlog]).1 ∧
    (preprocessActivity s agentId now).2 =
      (claimLoop (orphanResetJobs s.jobs agent.orgId agentId now) s.queueStatus
        agent.orgId agentId now [.rework, .backlog]).2 := by
  unfold preprocessActivity
  rw [hag]
  dsimp only
  rw [if_neg (show ¬(agent.status ≠ AgentStatus.active) from fun h => h hact)]
  rw [hfip]
  exact ⟨rfl, rfl⟩

theorem wf_map_key {l : List JobRow} {f : JobRow → JobRow}
    (hf : ∀ x, jobKey (f x) = jobKey x) (h : WF l) : WF (l.map f) := by
  unfold WF at h ⊢
  rw [List.map_map]
  have hcongr : l.map (jobKey ∘ f) = l.map jobKey :=
    List.map_congr_left (fun x _ => hf x)
  rw [hcongr]
  exact h

theorem latestSingle_of_single {l : List JobRow} (hwf : WF l) (h : SingleDispatch l) :
    LatestSingleDispatch l := by
  intro r1 h1 r2 h2 hl1 hl2 hs1 hs2 hsome hagree
  have hid := h r1 h1 r2 h2 hs1 hs2 hsome hagree
  have hv1 : r2.version ≤ r1.version := hl1 r2 h2 hid.symm
  have hv2 : r1.version ≤ r2.version := hl2 r1 h1 hid
  have hkey : jobKey r1 = jobKey r2 := by
    show (r1.id, r1.version) = (r2.id, r2.version)
    rw [hid, Nat.le_antisymm hv2 hv1]
  exact List.inj_on_of_nodup_map hwf h1 h2 hkey

theorem singleDispatch_orphanReset {l : List JobRow} (orgId agentId : String) (now : Nat)
    (h : SingleDispatch l) : SingleDispatch (orphanResetJobs l orgId agentId now) := by
  have hfix : ∀ x : JobRow,
      ((if x.id ∈ orphanIds l orgId agentId now then
        { x with status := .queued, agentId := none, updatedAt := now } else x)).status =
        .inProgress →
      (if x.id ∈ orphanIds l orgId agentId now then
        { x with status := .queued, agentId := none, updatedAt := now } else x) = x := by
    intro x hx
    by_cases hm : x.id ∈ orphanIds l orgId agentId now
    · rw [if_pos hm] at hx; cases hx
    · exact if_neg hm
  intro r1 hr1 r2 hr2 hs1 hs2 hsome hagree
  rw [show orphanResetJobs l orgId agentId now =
      l.map (fun x => if x.id ∈ orphanIds l orgId agentId now then
        { x with status := .queued, agentId := none, updatedAt := now } else x) from rfl] at hr1 hr2
  obtain ⟨x1, hx1, rfl⟩ := List.mem_map.mp hr1
  obtain ⟨x2, hx2, rfl⟩ := List.mem_map.mp hr2
  have e1 := hfix x1 hs1
  have e2 := hfix x2 hs2
  rw [e1] at hs1 hsome hagree ⊢
  rw [e2] at hs2 hagree ⊢
  exact h x1 hx1 x2 hx2 hs1 hs2 hsome hagree

theorem singleDispatch_claim {l1 : List JobRow} (cid agentId : String) (now : Nat)
    (hfip : findInProgress l1 agentId = none) (h : SingleDispatch l1) :
    SingleDispatch (claimJobs l1 cid agentId now) := by
  have hnone : ∀ x ∈ l1, ¬(x.agentId = some agentId ∧ x.status = .inProgress) := by
    intro x hx hc
    have := List.find?_eq_none.mp hfip x hx
    rw [decide_eq_true hc] at this
    exact this rfl
  intro r1 hr1 r2 hr2 hs1 hs2 hsome hagree
  rw [show claimJobs l1 cid agentId now = l1.map (fun x => if x.id = cid then
      { x with status := .inProgress, agentId := some agentId, updatedAt := now } else x)
      from rfl] at hr1 hr2
  obtain ⟨x1, hx1, rfl⟩ := List.mem_map.mp hr1
  obtain ⟨x2, hx2, rfl⟩ := List.mem_map.mp hr2
  by_cases h1 : x1.id = cid <;> by_cases h2 : x2.id = cid
  · show (if x1.id = cid then _ else x1).id = (if x2.id = cid then _ else x2).id
    rw [if_pos h1, if_pos h2]
    show x1.id = x2.id
    rw [h1, h2]
  · exfalso
    rw [if_pos h1] at hagree
    rw [if_neg h2] at hagree hs2
    exact hnone x2 hx2 ⟨hagree.symm, hs2⟩
  · exfalso
    rw [if_neg h1] at hagree hs1
    rw [if_pos h2] at hagree
    exact hnone x1 hx1 ⟨hagree, hs1⟩
  · rw [if_neg h1] at hs1 hsome hagree ⊢
    rw [if_neg h2] at hs2 hagree ⊢
    exact h x1 hx1 x2 hx2 hs1 hs2 hsome hagree

theorem orphanReset_key (l : List JobRow) (orgId agentId : String) (now : Nat) (x : JobRow) :
    jobKey (if x.id ∈ orphanIds l orgId agentId now then
      { x with status := .queued, agentId := none, updatedAt := now } else x) = jobKey x := by
  split <;> rfl

theorem claimOne_key (cid agentId : String) (now : Nat) (x : JobRow) :
    jobKey (if x.id = cid then
      { x with status := .inProgress, agentId := some agentId, updatedAt := now } else x) =
      jobKey x := by
  split <;> rfl

theorem insertByOrder_perm (r : JobRow) :
    ∀ l : List JobRow, List.Perm (insertByOrder r l) (r :: l)
  | [] => List.Perm.refl _
  | a :: t => by
      unfold insertByOrder
      split
      · exact List.Perm.refl _
      · exact ((insertByOrder_perm r t).cons a).trans (List.Perm.swap r a t)

theorem sortByOrder_perm : ∀ l : List JobRow, List.Perm (sortByOrder l) l
  | [] => List.Perm.refl _
  | a :: t => (insertByOrder_perm a (sortByOrder t)).trans ((sortByOrder_perm t).cons a)

theorem spliceInsert_perm (l : List JobRow) (n : Nat) (a : JobRow) :
    List.Perm (spliceInsert l n a) (a :: l) := by
  have h : List.Perm (l.take n ++ a :: l.drop n) (a :: (l.take n ++ l.drop n)) :=
    List.perm_middle
  rw [List.take_append_drop] at h
  exact h

theorem filter_map_pred {α : Type} {f : α → α} {p : α → Bool}
    (hp : ∀ x, p (f x) = p x) :
    ∀ l : List α, (l.map f).filter p = (l.filter p).map f
  | [] => rfl
  | a :: t => by
      simp only [List.map_cons, List.filter_cons, hp a]
      split
      · rw [List.map_cons, filter_map_pred hp t]
      · exact filter_map_pred hp t

theorem filter_key_eq_singleton {x : JobRow} {pred : JobRow → Bool} :
    ∀ {l : List JobRow}, (l.map jobKey).Nodup → x ∈ l →
    (∀ y ∈ l, (pred y = true ↔ jobKey y = jobKey x)) → l.filter pred = [x]
  | [], _, hx, _ => by cases hx
  | a :: t, hnd, hx, hpred => by
      rw [List.map_cons, List.nodup_cons] at hnd
      rcases List.mem_cons.mp hx with hax | hxt
      · have hpa : pred a = true := (hpred a (List.mem_cons_self a t)).mpr (by rw [hax])
        have hft : t.filter pred = [] := by
          rw [List.filter_eq_nil_iff]
          intro y hy hpy
          refine absurd (List.mem_map.mpr ⟨y, hy, ?_⟩) hnd.1
          rw [← hax]
          exact (hpred y (List.mem_cons_of_mem a hy)).mp hpy
        rw [List.filter_cons]
        simp [hpa, hft, hax]
      · have hpa : pred a = false := by
          rcases hb : pred a with _ | _
          · rfl
          · exfalso
            have := (hpred a (List.mem_cons_self a t)).mp hb
            exact hnd.1 (this ▸ List.mem_map.mpr ⟨x, hxt, rfl⟩)
        rw [List.filter_cons, hpa]
        exact filter_key_eq_singleton hnd.2 hxt
          (fun y hy => hpred y (List.mem_cons_of_mem a hy))

theorem find_enum_split {a : JobRow} {pred : Nat × JobRow → Bool}
    (ha : ∀ i, pred (i, a) = true) :
    ∀ (pre : List JobRow) (k : Nat) (rest : List JobRow),
    (∀ x ∈ pre, ∀ i, pred (i, x) = false) →
    (List.enumFrom k (pre ++ a :: rest)).find? pred = some (k + pre.length, a)
  | [], k, rest, _ => by
      simp only [List.nil_append, List.enumFrom, List.find?, ha k, List.length_nil,
        Nat.add_zero]
  | x :: pre, k, rest, hfail => by
      have hx : pred (k, x) = false := hfail x (List.mem_cons_self x pre) k
      have hih := find_enum_split ha pre (k + 1) rest
        (fun y hy => hfail y (List.mem_cons_of_mem x hy))
      have harith : k + 1 + pre.length = k + (x :: pre).length := by
        simp only [List.length_cons]
        omega
      rw [List.cons_append]
      simp only [List.enumFrom, List.find?, hx]
      show List.find? pred (List.enumFrom (k + 1) (pre ++ a :: rest)) =
        some (k + (x :: pre).length, a)
      rw [hih, harith]

theorem key_ne_of_take {rd : List JobRow} (hnd : (rd.map jobKey).Nodup)
    (k : Nat) (hk : k < rd.length) :
    ∀ x ∈ rd.take k, jobKey x ≠ jobKey (rd.get ⟨k, hk⟩) := by
  intro x hx heq
  have hxrd : x ∈ rd := List.Sublist.mem hx (List.take_sublist k rd)
  have hget : rd.get ⟨k, hk⟩ ∈ rd := List.get_mem rd k hk
  have hxeq : x = rd.get ⟨k, hk⟩ := List.inj_on_of_nodup_map hnd hxrd hget heq
  have hndv : rd.Nodup := List.Nodup.of_map jobKey hnd
  have hsplit : (rd.take k ++ rd.drop k).Nodup := by
    rw [List.take_append_drop]; exact hndv
  rw [List.nodup_append] at hsplit
  have hmemdrop : rd.get ⟨k, hk⟩ ∈ rd.drop k := by
    rw [List.drop_eq_getElem_cons hk]
    exact List.mem_cons_self _ _
  exact hsplit.2.2 (hxeq ▸ hx) hmemdrop

theorem enum_find_self {rd : List JobRow} (hnd : (rd.map jobKey).Nodup)
    (k : Nat) (hk : k < rd.length) :
    rd.enum.find? (fun p => decide (p.2.id = (rd.get ⟨k, hk⟩).id ∧
        p.2.version = (rd.get ⟨k, hk⟩).version)) =
      some (k, rd.get ⟨k, hk⟩) := by
  have hdecomp : rd = rd.take k ++ rd.get ⟨k, hk⟩ :: rd.drop (k + 1) := by
    conv_lhs => rw [← List.take_append_drop k rd]
    rw [List.drop_eq_getElem_cons hk]
    rfl
  have hne := key_ne_of_take hnd k hk
  generalize hg : rd.get ⟨k, hk⟩ = a
  rw [hg] at hdecomp hne
  have hfind := @find_enum_split a
    (fun p => decide (p.2.id = a.id ∧ p.2.version = a.version))
    (fun i => by simp)
    (rd.take k) 0 (rd.drop (k + 1))
    (fun x hx i => by
      rw [decide_eq_false_iff_not]
      rintro ⟨h1, h2⟩
      exact hne x hx (by show (x.id, x.version) = _; rw [h1, h2]; rfl))
  have hlen : (rd.take k).length = k := by
    rw [List.length_take]
    exact Nat.min_eq_left (Nat.le_of_lt hk)
  rw [show rd.enum = List.enumFrom 0 rd from rfl]
  conv_lhs => rw [hdecomp]
  rw [hfind, hlen, Nat.zero_add]

theorem reorderRow_fields (reordered : List JobRow) (targetId : String)
    (targetVer : Nat) (orgId userId : String) (now : Nat) (r : JobRow) :
    jobKey (reorderRow reordered targetId targetVer orgId userId now r) = jobKey r ∧
    (reorderRow reordered targetId targetVer orgId userId now r).status = r.status ∧
    (reorderRow reordered targetId targetVer orgId userId now r).queueType = r.queueType ∧
    (reorderRow reordered targetId targetVer orgId userId now r).orgId = r.orgId := by
  unfold reorderRow
  split
  · split
    · split
      · exact ⟨rfl, rfl, rfl, rfl⟩
      · split
        · exact ⟨rfl, rfl, rfl, rfl⟩
        · exact ⟨rfl, rfl, rfl, rfl⟩
    · exact ⟨rfl, rfl, rfl, rfl⟩
  · exact ⟨rfl, rfl, rfl, rfl⟩

theorem reorderRow_order {reordered : List JobRow} (targetId : String)
    (targetVer : Nat) (orgId userId : String) (now : Nat) {r : JobRow} {i : Nat}
    (horg : r.orgId = orgId)
    (hfind : reordered.enum.find?
        (fun p => decide (p.2.id = r.id ∧ p.2.version = r.version)) = some (i, r)) :
    (reorderRow reordered targetId targetVer orgId userId now r).orderInQueue =
      Int.ofNat i := by
  unfold reorderRow
  rw [if_pos horg, hfind]
  dsimp only
  split
  · rfl
  · split
    · rfl
    · rename_i hskip
      exact not_ne_iff.mp hskip

theorem reorder_perm_spec (l : List JobRow) (id orgId userId : String) (now : Nat)
    (job : JobRow) (m : Nat)
    (hwf : WF l) (hjob : job ∈ l) (hjid : job.id = id) (hjorg : job.orgId = orgId)
    (hq : job.status = .queued) :
    List.Perm
      ((queueFilter (applyReorder l
          (spliceInsert ((sortByOrder (queueFilter l orgId job.queueType)).filter
            (fun j => decide (¬(j.id = id ∧ j.version = job.version)))) m job)
          id job.version orgId userId now) orgId job.queueType).map jobKey)
      ((queueFilter l orgId job.queueType).map jobKey) ∧
    List.Perm
      ((queueFilter (applyReorder l
          (spliceInsert ((sortByOrder (queueFilter l orgId job.queueType)).filter
            (fun j => decide (¬(j.id = id ∧ j.version = job.version)))) m job)
          id job.version orgId userId now) orgId job.queueType).map
        (fun r => r.orderInQueue))
      ((List.range (queueFilter l orgId job.queueType).length).map Int.ofNat) ∧
    ∀ r ∈ applyReorder l
        (spliceInsert ((sortByOrder (queueFilter l orgId job.queueType)).filter
          (fun j => decide (¬(j.id = id ∧ j.version = job.version)))) m job)
        id job.version orgId userId now,
      r.id = job.id → r.version = job.version →
      r.orderInQueue =
        Int.ofNat (min m ((queueFilter l orgId job.queueType).length - 1)) := by
  set fS := queueFilter l orgId job.queueType with hfSdef
  set aq := sortByOrder fS with haqdef
  set oth := aq.filter (fun j => decide (¬(j.id = id ∧ j.version = job.version))) with hothdef
  set rd := spliceInsert oth m job with hrddef
  have hjobF : job ∈ fS := by
    rw [hfSdef]
    exact List.mem_filter.mpr ⟨hjob, decide_eq_true ⟨hjorg, hq, rfl⟩⟩
  have haqP : List.Perm aq fS := sortByOrder_perm fS
  have hndF : (fS.map jobKey).Nodup := by
    have hsub : fS.Sublist l := by rw [hfSdef]; exact List.filter_sublist _
    exact List.Nodup.sublist (List.Sublist.map jobKey hsub) hwf
  have hndaq : (aq.map jobKey).Nodup := ((haqP.map jobKey).symm).nodup hndF
  have hjob_aq : job ∈ aq := haqP.mem_iff.mpr hjobF
  have htgt : aq.filter (fun j => decide (j.id = id ∧ j.version = job.version)) = [job] := by
    apply filter_key_eq_singleton hndaq hjob_aq
    intro y hy
    rw [decide_eq_true_iff]
    constructor
    · rintro ⟨h1, h2⟩
      show (y.id, y.version) = (job.id, job.version)
      rw [h1, h2, hjid]
    · intro hkey
      have h1 : y.id = job.id := congrArg Prod.fst hkey
      have h2 : y.version = job.version := congrArg Prod.snd hkey
      exact ⟨h1.trans hjid, h2⟩
  have hsplitP : List.Perm (job :: oth) aq := by
    have hcongr : oth =
        aq.filter (fun x => !(decide (x.id = id ∧ x.version = job.version))) := by
      rw [hothdef]
      apply List.filter_congr
      intro x _
      rw [decide_not]
    have hperm := List.filter_append_perm
      (fun j => decide (j.id = id ∧ j.version = job.version)) aq
    rw [htgt] at hperm
    rw [hcongr]
    exact hperm
  have hrdP : List.Perm rd (job :: oth) := spliceInsert_perm oth m job
  have hchainAq : List.Perm rd aq := hrdP.trans hsplitP
  have hchainFS : List.Perm rd fS := hchainAq.trans haqP
  have hnd_rd : (rd.map jobKey).Nodup := ((hchainAq.map jobKey).symm).nodup hndaq
  have horg_rd : ∀ x ∈ rd, x.orgId = orgId := by
    intro x hx
    have hxF : x ∈ fS := hchainFS.mem_iff.mp hx
    rw [hfSdef] at hxF
    exact (of_decide_eq_true (List.mem_filter.mp hxF).2).1
  have hFfields := reorderRow_fields rd id job.version orgId userId now
  have happly : applyReorder l rd id job.version orgId userId now =
      l.map (reorderRow rd id job.version orgId userId now) := rfl
  have hqf : queueFilter (l.map (reorderRow rd id job.version orgId userId now))
      orgId job.queueType = fS.map (reorderRow rd id job.version orgId userId now) := by
    rw [hfSdef]
    unfold queueFilter
    apply filter_map_pred
    intro x
    have h := hFfields x
    rw [show (reorderRow rd id job.version orgId userId now x).status = x.status from h.2.1,
      show (reorderRow rd id job.version orgId userId now x).queueType = x.queueType from
        h.2.2.1,
      show (reorderRow rd id job.version orgId userId now x).orgId = x.orgId from h.2.2.2]
  have hkeys : (fS.map (reorderRow rd id job.version orgId userId now)).map jobKey =
      fS.map jobKey := by
    rw [List.map_map]
    exact List.map_congr_left (fun x _ => (hFfields x).1)
  have hlenrd : rd.length = fS.length := hchainFS.length_eq
  have hlenoth : oth.length + 1 = fS.length := by
    have h1 : (job :: oth).length = aq.length := hsplitP.length_eq
    have h2 : aq.length = fS.length := haqP.length_eq
    rw [List.length_cons] at h1
    omega
  refine ⟨?_, ?_, ?_⟩
  · rw [happly, hqf, hkeys]
  · rw [happly, hqf, List.map_map]
    have heq : rd.map ((fun r => r.orderInQueue) ∘
        reorderRow rd id job.version orgId userId now) =
        (List.range rd.length).map Int.ofNat := by
      apply List.ext_get
      · rw [List.length_map, List.length_map, List.length_range]
      · intro k h1 h2
        have hk : k < rd.length := by
          rw [List.length_map] at h1
          exact h1
        rw [List.get_eq_getElem, List.get_eq_getElem, List.getElem_map, List.getElem_map,
          List.getElem_range]
        show (reorderRow rd id job.version orgId userId now rd[k]).orderInQueue = Int.ofNat k
        exact reorderRow_order id job.version orgId userId now
          (horg_rd _ (List.getElem_mem hk)) (enum_find_self hnd_rd k hk)
    have hmapP : List.Perm
        (fS.map ((fun r => r.orderInQueue) ∘ reorderRow rd id job.version orgId userId now))
        (rd.map ((fun r => r.orderInQueue) ∘ reorderRow rd id job.version orgId userId now)) :=
      (hchainFS.symm).map _
    rw [heq, hlenrd] at hmapP
    exact hmapP
  · intro r hr hid' hver'
    rw [happly] at hr
    obtain ⟨x, hx, rfl⟩ := List.mem_map.mp hr
    have hxkey : jobKey x = jobKey job := by
      rw [← (hFfields x).1]
      show ((reorderRow rd id job.version orgId userId now x).id,
        (reorderRow rd id job.version orgId userId now x).version) = (job.id, job.version)
      rw [hid', hver']
    have hxjob : x = job := List.inj_on_of_nodup_map hwf hx hjob hxkey
    subst hxjob
    have hfail : ∀ y ∈ oth.take m, ∀ i : Nat,
        (fun q => decide (q.2.id = x.id ∧ q.2.version = x.version)) (i, y) = false := by
      intro y hy i
      have hyoth : y ∈ oth := List.Sublist.mem hy (List.take_sublist _ _)
      rw [hothdef] at hyoth
      have hpred := (List.mem_filter.mp hyoth).2
      rw [decide_eq_false_iff_not]
      rintro ⟨h1, h2⟩
      exact (of_decide_eq_true hpred) ⟨h1.trans hjid, h2⟩
    have hfind := @find_enum_split x
      (fun q => decide (q.2.id = x.id ∧ q.2.version = x.version))
      (fun i => by simp)
      (oth.take m) 0 (oth.drop m) hfail
    have hfind' : rd.enum.find?
        (fun q => decide (q.2.id = x.id ∧ q.2.version = x.version)) =
        some (min m oth.length, x) := by
      rw [show rd.enum = List.enumFrom 0 (oth.take m ++ x :: oth.drop m) from by
        rw [hrddef]; rfl]
      rw [hfind]
      congr 1
      rw [Nat.zero_add, List.length_take]
    have horder := reorderRow_order id x.version orgId userId now hjorg hfind'
    rw [horder]
    congr 1
    omega

/-! Claim C1 (positions stay contiguous). -/

/-- Claim C1: the archive operation (`DELETE /jobs/:id`) breaks the contiguity
invariant.  Starting from a contiguous backlog `{0, 1}`, archiving the job at
position 0 leaves the queued set with positions `{1}`, not `{0}`: the handler
archives in place without removing the job from the queue or shifting the
remaining rows. -/
theorem c1_archive_breaks_contiguity :
    ContiguousPositions c1State.jobs "o" .backlog ∧
      ¬ ContiguousPositions (archiveJob c1State "jA" "o" "u" "act" true 1000).1.jobs
        "o" .backlog := by
  decide

/-! Claim C5 (offline only after three consecutive failed pings). -/

/-- Claim C5: a single failed ping against an active agent with
`consecutive_failures = 0` already sets `status = offline` (with the counter at
1), contradicting the three-failure threshold stated by the spec and by the
repository's own design document. -/
theorem c5_single_failed_ping_sets_offline :
    (c5State.agents.find? (fun ag => decide (ag.id = "a"))) =
        some { baseAgent with status := .active, consecutiveFailures := 0 } ∧
      ((pingAgentViaStream c5State "a" false 1000).1.agents.find?
          (fun ag => decide (ag.id = "a"))) =
        some { baseAgent with status := .offline, consecutiveFailures := 1, updatedAt := 1000 } ∧
      (pingAgentViaStream c5State "a" false 1000).2.success = false := by
  decide

/-! Claim C3 (orphan reconciliation resets matching jobs, frame on the rest). -/

/-- Claim C3, counterexample: the orphan reset update filters by job id only,
so a non-matching row (the old completed version of job `j`) is also rewritten
to queued when its latest version is an orphan.  This refutes the claim's
frame part, which says rows not matching the orphan condition stay unchanged. -/
theorem c3_counterexample : ¬ OrphanFrameClaim c3Jobs "o" "a" 1000 := by decide

/-- Claim C3, amended: the orphan reset sets `status = queued`, clears
`agent_id`, and preserves `queue_type` and `order_in_queue` on every matching
row; a row whose job id is shared with no matching row is unchanged (rather
than every non-matching row, since the update filters by id only); ids,
versions and queue fields are preserved everywhere. -/
theorem c3_orphan_reset (l : List JobRow) (orgId agentId : String) (now : Nat) :
    (orphanResetJobs l orgId agentId now).length = l.length ∧
    ∀ p ∈ l.zip (orphanResetJobs l orgId agentId now),
      (orphanMatches orgId agentId now p.1 →
        p.2 = { p.1 with status := .queued, agentId := none, updatedAt := now }) ∧
      ((∀ r' ∈ l, orphanMatches orgId agentId now r' → r'.id ≠ p.1.id) → p.2 = p.1) ∧
      p.2.queueType = p.1.queueType ∧ p.2.orderInQueue = p.1.orderInQueue ∧
      p.2.id = p.1.id ∧ p.2.version = p.1.version := by
  constructor
  · simp [orphanResetJobs]
  · intro p hp
    rw [show orphanResetJobs l orgId agentId now =
        l.map (fun r => if r.id ∈ orphanIds l orgId agentId now then
          { r with status := .queued, agentId := none, updatedAt := now } else r) from rfl,
      zip_map_self] at hp
    obtain ⟨x, hx, rfl⟩ := List.mem_map.mp hp
    refine ⟨?_, ?_, ?_, ?_, ?_, ?_⟩
    · intro hm
      have hmem : x.id ∈ orphanIds l orgId agentId now :=
        List.mem_map.mpr ⟨x, List.mem_filter.mpr ⟨hx, decide_eq_true hm⟩, rfl⟩
      simp [hmem]
    · intro hnone
      have hmem : x.id ∉ orphanIds l orgId agentId now := by
        intro hmem
        obtain ⟨r', hr', hid⟩ := List.mem_map.mp hmem
        have hr'l := List.mem_filter.mp hr'
        exact hnone r' hr'l.1 (of_decide_eq_true hr'l.2) hid
      simp [hmem]
    all_goals (dsimp only; split <;> rfl)

/-- Witness for `c3_orphan_reset`: a concrete in-progress row owned by the
agent is reset to queued with its queue fields intact. -/
theorem c3_orphan_reset_witness :
    (orphanResetJobs [c3wRow] "o" "a" 1000).length = [c3wRow].length ∧
      (c3wRow, c3wReset).2 =
        { (c3wRow, c3wReset).1 with status := .queued, agentId := none, updatedAt := 1000 } := by
  have h := c3_orphan_reset [c3wRow] "o" "a" 1000
  exact ⟨h.1, (h.2 (c3wRow, c3wReset) (by decide)).1 (by decide)⟩

/-! Claim C9 (non-versioning mutations touch only the latest version row). -/

/-- Claim C9, counterexample: the preprocess claim update filters by job id
only; claiming job `j` (whose minimal-position queued row is version 1) also
rewrites the old version-1 row, which is not a latest-version row. -/
theorem c9_counterexample :
    ¬ OnlyLatestModified c9State.jobs (preprocessActivity c9State "a" 1000).1.jobs := by
  decide

/-- Claim C9, amended: the archive update and the in-place PUT update filter by
`(id, version, org)` and so modify only the latest version row of the target
job; the preprocess orphan reset and claim update filter by job id only, so a
row they modify is guaranteed only to share its job id with an in-progress row
or with the claimed job. -/
theorem c9_latest_only_frames :
    (∀ (s : St) (id orgId userId actId : String) (actOk : Bool) (now : Nat) (cur : JobRow),
      findLatest s.jobs id orgId = some cur →
      ∀ p ∈ s.jobs.zip ((archiveJob s id orgId userId actId actOk now).1.jobs),
        p.1 ≠ p.2 → p.1.id = id ∧ p.1.orgId = orgId ∧ p.1.version = cur.version ∧
          ∀ r' ∈ s.jobs, r'.id = id → r'.orgId = orgId → r'.version ≤ p.1.version) ∧
    (∀ (s : St) (id orgId userId : String) (body : UpdateJobRequest)
        (genTitle genDesc actId : String) (actOk : Bool) (now : Nat) (cur : JobRow),
      findLatest s.jobs id orgId = some cur →
      needsNewVersionFor cur body = false →
      body.status ≠ some .inReview →
      body.userAcceptanceStatus = none →
      ∀ p ∈ s.jobs.zip ((putJob s id orgId userId body genTitle genDesc actId actOk now).1.jobs),
        p.1 ≠ p.2 → p.1.id = id ∧ p.1.orgId = orgId ∧ p.1.version = cur.version) ∧
    (∀ (s : St) (agentId : String) (now : Nat),
      ∀ p ∈ s.jobs.zip ((preprocessActivity s agentId now).1.jobs),
        p.1 ≠ p.2 →
          (∃ r' ∈ s.jobs, r'.id = p.1.id ∧ r'.status = .inProgress) ∨
          (preprocessActivity s agentId now).2.jobId = some p.1.id) := by
  refine ⟨?_, ?_, ?_⟩
  · intro s id orgId userId actId actOk now cur hcur p hp hne
    obtain ⟨hmem, hid, horg, hmax⟩ := findLatest_spec hcur
    unfold archiveJob at hp
    rw [hcur] at hp
    dsimp only at hp
    by_cases harch : cur.status = .archived
    · rw [if_pos harch] at hp
      exact absurd (mem_zip_self hp) hne
    · rw [if_neg harch] at hp
      rw [createActivity_jobs] at hp
      dsimp only at hp
      rw [zip_map_self] at hp
      obtain ⟨x, hx, rfl⟩ := List.mem_map.mp hp
      dsimp only at hne ⊢
      by_cases hcond : x.id = id ∧ x.version = cur.version ∧ x.orgId = orgId
      · exact ⟨hcond.1, hcond.2.2, hcond.2.1, fun r' hr' h1 h2 => hcond.2.1 ▸ hmax r' hr' h1 h2⟩
      · exact absurd (if_neg hcond).symm hne
  · intro s id orgId userId body genTitle genDesc actId actOk now cur hcur hnnv hst huas p hp hne
    unfold putJob at hp
    rw [hcur] at hp
    dsimp only at hp
    by_cases hguard : body.status = some .inProgress ∧ cur.status = .queued
    · rw [if_pos hguard] at hp
      exact absurd (mem_zip_self hp) hne
    · rw [if_neg hguard] at hp
      rw [putPreSteps_frame s orgId cur body now hst huas, hnnv] at hp
      simp only [Bool.false_eq_true, if_false, createActivity_jobs] at hp
      rw [zip_map_self] at hp
      obtain ⟨x, hx, rfl⟩ := List.mem_map.mp hp
      dsimp only at hne ⊢
      by_cases hcond : x.id = id ∧ x.version = cur.version ∧ x.orgId = orgId
      · exact ⟨hcond.1, hcond.2.2, hcond.2.1⟩
      · exact absurd (if_neg hcond).symm hne
  · intro s agentId now p hp hne
    rcases preprocess_cases s agentId now with
      hcase | ⟨agent, hag, hact, hcase | ⟨hfip9, cid, hres, hcase⟩⟩
    · rw [hcase] at hp
      exact absurd (mem_zip_self hp) hne
    · rw [hcase] at hp
      rw [show orphanResetJobs s.jobs agent.orgId agentId now =
          s.jobs.map (fun r => if r.id ∈ orphanIds s.jobs agent.orgId agentId now then
            { r with status := .queued, agentId := none, updatedAt := now } else r) from rfl,
        zip_map_self] at hp
      obtain ⟨x, hx, rfl⟩ := List.mem_map.mp hp
      exact Or.inl (orphanReset_ne_imp (Ne.symm hne))
    · rw [hcase] at hp
      rw [show claimJobs (orphanResetJobs s.jobs agent.orgId agentId now) cid agentId now =
          s.jobs.map ((fun r => if r.id = cid then
              { r with status := .inProgress, agentId := some agentId, updatedAt := now } else r) ∘
            (fun r => if r.id ∈ orphanIds s.jobs agent.orgId agentId now then
              { r with status := .queued, agentId := none, updatedAt := now } else r)) from by
          simp only [claimJobs, orphanResetJobs, List.map_map],
        zip_map_self] at hp
      obtain ⟨x, hx, rfl⟩ := List.mem_map.mp hp
      dsimp only [Function.comp] at hne
      by_cases hf : (if x.id ∈ orphanIds s.jobs agent.orgId agentId now then
          { x with status := .queued, agentId := none, updatedAt := now } else x) = x
      · rw [hf] at hne
        by_cases hc : x.id = cid
        · exact Or.inr (hc ▸ hres)
        · rw [if_neg hc] at hne; exact absurd rfl (Ne.symm hne)
      · exact Or.inl (orphanReset_ne_imp hf)

/-- Witness for `c9_latest_only_frames`: archiving job `jA` in a two-job store
modifies only that job's (sole, hence latest) version row. -/
theorem c9_latest_only_frames_witness :
    c9wPair.1.id = "jA" ∧ c9wPair.1.orgId = "o" ∧
      c9wPair.1.version = ({ baseRow with id := "jA", orderInQueue := 0 } : JobRow).version ∧
      ∀ r' ∈ c1State.jobs, r'.id = "jA" → r'.orgId = "o" → r'.version ≤ c9wPair.1.version :=
  c9_latest_only_frames.1 c1State "jA" "o" "u" "act" true 1000
    { baseRow with id := "jA", orderInQueue := 0 } (by decide) c9wPair (by decide) (by decide)

/-! Claim C8 (agent registration). -/

/-- Claim C8: registration with an unknown key hash fails with the
invalid-credentials message and leaves the whole store untouched; with a known
key it upserts on `(org_id, hostname)` a row with `status = active`,
`consecutive_failures = 0`, and `last_active` / `last_stream_connected_at` set
to now, reporting success; and the outcome never depends on the schedule-hook
result, whose failure is swallowed. -/
theorem c8_register_agent (s : St) (hash : String → String)
    (apiKey hostname ipAddress : String) (port : Nat) (newAgentId : String)
    (hookOk : Bool) (now : Nat) :
    (s.apiKeys.find? (fun k => decide (k.keyHash = hash apiKey)) = none →
      (registerAgent s hash apiKey hostname ipAddress port newAgentId hookOk now).2.success
          = false ∧
        (registerAgent s hash apiKey hostname ipAddress port newAgentId hookOk now).2.message
          = "Invalid API key" ∧
        (registerAgent s hash apiKey hostname ipAddress port newAgentId hookOk now).1 = s) ∧
    (∀ storedKey,
      s.apiKeys.find? (fun k => decide (k.keyHash = hash apiKey)) = some storedKey →
      (registerAgent s hash apiKey hostname ipAddress port newAgentId hookOk now).2.success
          = true ∧
        ∃ ag' ∈ (registerAgent s hash apiKey hostname ipAddress port newAgentId hookOk now).1.agents,
          ag'.id =
              (registerAgent s hash apiKey hostname ipAddress port newAgentId hookOk now).2.agentId ∧
            ag'.orgId = storedKey.orgId ∧ ag'.host = hostname ∧ ag'.status = .active ∧
            ag'.consecutiveFailures = 0 ∧ ag'.lastActive = some now ∧
            ag'.lastStreamConnectedAt = some now ∧ ag'.ip = some ipAddress ∧
            ag'.port = some port) ∧
    registerAgent s hash apiKey hostname ipAddress port newAgentId hookOk now =
      registerAgent s hash apiKey hostname ipAddress port newAgentId true now := by
  refine ⟨?_, ?_, rfl⟩
  · intro h
    unfold registerAgent
    dsimp only
    rw [h]
    exact ⟨rfl, rfl, rfl⟩
  · intro k hk
    unfold registerAgent
    dsimp only
    rw [hk]
    dsimp only
    cases hag : s.agents.find? (fun ag => decide (ag.orgId = k.orgId ∧ ag.host = hostname)) with
    | some agent =>
        have hmem := List.mem_of_find?_eq_some hag
        have hfs := List.find?_some hag
        have hpred : agent.orgId = k.orgId ∧ agent.host = hostname := of_decide_eq_true hfs
        refine ⟨rfl, ?_⟩
        refine ⟨_, List.mem_map_of_mem _ hmem, ?_⟩
        rw [if_pos rfl]
        exact ⟨rfl, hpred.1, hpred.2, rfl, rfl, rfl, rfl, rfl, rfl⟩
    | none =>
        refine ⟨rfl, ?_⟩
        refine ⟨_, List.mem_append_right _ (List.mem_singleton.mpr rfl), ?_⟩
        exact ⟨rfl, rfl, rfl, rfl, rfl, rfl, rfl, rfl, rfl⟩

/-- Witness for `c8_register_agent`: a known key registers a fresh agent row
with the stated fields. -/
theorem c8_register_agent_witness :
    (registerAgent c8State c8Hash "key" "host1" "1.2.3.4" 50051 "agent-new" false 77).2.success
        = true ∧
      ∃ ag' ∈ (registerAgent c8State c8Hash "key" "host1" "1.2.3.4" 50051 "agent-new" false 77).1.agents,
        ag'.id =
            (registerAgent c8State c8Hash "key" "host1" "1.2.3.4" 50051 "agent-new" false 77).2.agentId ∧
          ag'.orgId = (⟨"key#h", "o"⟩ : ApiKeyRow).orgId ∧ ag'.host = "host1" ∧
          ag'.status = .active ∧ ag'.consecutiveFailures = 0 ∧ ag'.lastActive = some 77 ∧
          ag'.lastStreamConnectedAt = some 77 ∧ ag'.ip = some "1.2.3.4" ∧
          ag'.port = some 50051 :=
  (c8_register_agent c8State c8Hash "key" "host1" "1.2.3.4" 50051 "agent-new" false 77).2.1
    ⟨"key#h", "o"⟩ (by decide)

/-! Claim C2 (preprocess queue selection). -/

/-- Claim C2: for an active agent with no in-progress job left after orphan
reconciliation, the queue-selection step tries rework before backlog, skips a
paused queue, claims from the first non-paused non-empty queue the queued row
with minimal `order_in_queue` — marking that job in-progress for the agent —
and returns `{job_id, queue, org_id}`; when both queues are paused or empty it
returns no job id and leaves the jobs table as the orphan step left it. -/
theorem c2_preprocess_queue_selection (s : St) (agentId : String) (now : Nat)
    (agent : AgentRow)
    (hag : s.agents.find? (fun ag => decide (ag.id = agentId)) = some agent)
    (hact : agent.status = .active)
    (hfip : findInProgress (orphanResetJobs s.jobs agent.orgId agentId now) agentId = none) :
    (¬ isPausedIn s.queueStatus agent.orgId .rework = true →
      queueFilter (orphanResetJobs s.jobs agent.orgId agentId now) agent.orgId
          (some .rework) ≠ [] →
      (preprocessActivity s agentId now).2.queueType = some .rework ∧
        (preprocessActivity s agentId now).2.jobId.isSome = true) ∧
    ((isPausedIn s.queueStatus agent.orgId .rework = true ∨
        queueFilter (orphanResetJobs s.jobs agent.orgId agentId now) agent.orgId
          (some .rework) = []) →
      ¬ isPausedIn s.queueStatus agent.orgId .backlog = true →
      queueFilter (orphanResetJobs s.jobs agent.orgId agentId now) agent.orgId
          (some .backlog) ≠ [] →
      (preprocessActivity s agentId now).2.queueType = some .backlog ∧
        (preprocessActivity s agentId now).2.jobId.isSome = true) ∧
    (∀ cid qt,
      (preprocessActivity s agentId now).2 = ⟨some cid, some qt, some agent.orgId⟩ →
      (∃ r ∈ queueFilter (orphanResetJobs s.jobs agent.orgId agentId now) agent.orgId
          (some qt), r.id = cid ∧
        ∀ r' ∈ queueFilter (orphanResetJobs s.jobs agent.orgId agentId now) agent.orgId
          (some qt), r.orderInQueue ≤ r'.orderInQueue) ∧
        (preprocessActivity s agentId now).1.jobs =
          claimJobs (orphanResetJobs s.jobs agent.orgId agentId now) cid agentId now) ∧
    ((isPausedIn s.queueStatus agent.orgId .rework = true ∨
        queueFilter (orphanResetJobs s.jobs agent.orgId agentId now) agent.orgId
          (some .rework) = []) →
      (isPausedIn s.queueStatus agent.orgId .backlog = true ∨
        queueFilter (orphanResetJobs s.jobs agent.orgId agentId now) agent.orgId
          (some .backlog) = []) →
      (preprocessActivity s agentId now).2 = ⟨none, none, some agent.orgId⟩ ∧
        (preprocessActivity s agentId now).1.jobs =
          orphanResetJobs s.jobs agent.orgId agentId now) := by
  obtain ⟨h1, h2⟩ := preprocess_claim_branch s agentId now agent hag hact hfip
  rw [h1, h2]
  exact claimLoop2_spec (orphanResetJobs s.jobs agent.orgId agentId now) s.queueStatus
    agent.orgId agentId now

/-- Witness for `c2_preprocess_queue_selection`: with an empty rework queue and
one queued backlog job, preprocess claims from the backlog. -/
theorem c2_preprocess_queue_selection_witness :
    (preprocessActivity c2State "a" 1000).2.queueType = some .backlog ∧
      (preprocessActivity c2State "a" 1000).2.jobId.isSome = true :=
  (c2_preprocess_queue_selection c2State "a" 1000 baseAgent (by decide) (by decide)
      (by decide)).2.1 (Or.inr (by decide)) (by decide) (by decide)

/-! Claim C4 (single dispatch per agent). -/

/-- Claim C4, counterexample: the claim as stated fails over the public
operations.  The PUT handler moves a job to in-progress without assigning or
clearing `agent_id`, so after claim `j1`, PUT `j1` to completed, claim `j2`,
PUT `j1` back to in-progress, two latest-version rows are in-progress with
`agent_id = a`. -/
theorem c4_counterexample : ¬ LatestSingleDispatch c4Chain.jobs := by decide

/-- Claim C4, amended: the preprocess activity preserves the single-dispatch
invariant (all in-progress rows of one agent share one job id, hence at most
one latest-version in-progress job per agent in a well-formed table), and when
it finds an in-progress job owned by the agent it returns
`{none, none, org_id}` without claiming, leaving the jobs table as the orphan
step left it and touching the agent's `last_active` and
`consecutive_failures`.  The `PUT /jobs/:id` endpoint, however, can break the
invariant, as the counterexample shows. -/
theorem c4_preprocess_single_dispatch (s : St) (agentId : String) (now : Nat) :
    (SingleDispatch s.jobs → SingleDispatch (preprocessActivity s agentId now).1.jobs) ∧
    (WF s.jobs → SingleDispatch s.jobs →
      LatestSingleDispatch (preprocessActivity s agentId now).1.jobs) ∧
    (∀ agent j,
      s.agents.find? (fun ag => decide (ag.id = agentId)) = some agent →
      agent.status = .active →
      findInProgress (orphanResetJobs s.jobs agent.orgId agentId now) agentId = some j →
      (preprocessActivity s agentId now).2 = ⟨none, none, some agent.orgId⟩ ∧
        (preprocessActivity s agentId now).1.jobs =
          orphanResetJobs s.jobs agent.orgId agentId now ∧
        ∀ ag' ∈ (preprocessActivity s agentId now).1.agents, ag'.id = agentId →
          ag'.lastActive = some now ∧ ag'.consecutiveFailures = 0) := by
  have hsd : SingleDispatch s.jobs → SingleDispatch (preprocessActivity s agentId now).1.jobs := by
    intro h
    rcases preprocess_cases s agentId now with
      hcase | ⟨agent, hag, hact, hcase | ⟨hfip, cid, hres, hcase⟩⟩
    · rw [hcase]; exact h
    · rw [hcase]; exact singleDispatch_orphanReset agent.orgId agentId now h
    · rw [hcase]
      exact singleDispatch_claim cid agentId now hfip
        (singleDispatch_orphanReset agent.orgId agentId now h)
  have hwf : WF s.jobs → WF (preprocessActivity s agentId now).1.jobs := by
    intro h
    rcases preprocess_cases s agentId now with
      hcase | ⟨agent, hag, hact, hcase | ⟨hfip, cid, hres, hcase⟩⟩
    · rw [hcase]; exact h
    · rw [hcase]; exact wf_map_key (orphanReset_key s.jobs agent.orgId agentId now) h
    · rw [hcase]
      exact wf_map_key (claimOne_key cid agentId now)
        (wf_map_key (orphanReset_key s.jobs agent.orgId agentId now) h)
  refine ⟨hsd, fun h1 h2 => latestSingle_of_single (hwf h1) (hsd h2), ?_⟩
  intro agent j hag hact hfip
  unfold preprocessActivity
  rw [hag]
  dsimp only
  rw [if_neg (show ¬(agent.status ≠ AgentStatus.active) from fun h => h hact)]
  rw [hfip]
  refine ⟨rfl, rfl, ?_⟩
  intro ag' hag' hid
  obtain ⟨x, hx, rfl⟩ := List.mem_map.mp hag'
  by_cases hxid : x.id = agentId
  · rw [if_pos hxid]; exact ⟨rfl, rfl⟩
  · rw [if_neg hxid] at hid ⊢; exact absurd hid hxid

/-- Witness for `c4_preprocess_single_dispatch`: claiming from a two-job
backlog keeps the latest-version single-dispatch property, and on a store
where the agent still owns a (cross-org) in-progress row the activity
heartbeats and returns no job. -/
theorem c4_preprocess_single_dispatch_witness :
    LatestSingleDispatch (preprocessActivity c4State "a" 1000).1.jobs ∧
      (preprocessActivity c4hbState "a" 1000).2 = ⟨none, none, some "o"⟩ :=
  ⟨(c4_preprocess_single_dispatch c4State "a" 1000).2.1 (by decide) (by decide),
    ((c4_preprocess_single_dispatch c4hbState "a" 1000).2.2 baseAgent
      { baseRow with id := "jx", orgId := "o2", status := .inProgress, agentId := some "a" }
      (by decide) (by decide) (by decide)).1⟩

/-! Claim C6 (retry writes a new version with cleared logs). -/

/-- Claim C6, counterexample: a PUT satisfying the retry predicate against a
job that is already queued writes the new version (version 2, logs cleared)
but appends no retry line — the handler only builds an `updates` message when
the status value actually changes, and here both are `queued`. -/
theorem c6_counterexample :
    isRetryFor c6cRow c6cBody = true ∧
      (rowOf (putJob c6cState "j" "o" "u" c6cBody "t" "d" "act" true 2000).2).map
          (fun row => row.version) = some 2 ∧
      (rowOf (putJob c6cState "j" "o" "u" c6cBody "t" "d" "act" true 2000).2).map
          (fun row => row.codeGenerationLogs) = some none ∧
      (rowOf (putJob c6cState "j" "o" "u" c6cBody "t" "d" "act" true 2000).2).map
          (fun row => row.codeVerificationLogs) = some none ∧
      (rowOf (putJob c6cState "j" "o" "u" c6cBody "t" "d" "act" true 2000).2).map
          (fun row => row.updates) = some none := by
  decide

/-- Claim C6, amended: every PUT satisfying the retry predicate writes a new
row with `version = current + 1` and empty `code_generation_logs` and
`code_verification_logs` (unconditionally, appended after the queue-shift
pre-steps); provided additionally that the body does not override
`order_in_queue`, carries no `user_acceptance_status` change, the job was not
already queued, and the latest comment's trimmed prompt is neither empty nor
the placeholder, the row is placed at the rework tail and `updates` gains the
retry line embedding that prompt. -/
theorem c6_retry_new_version (s : St) (id orgId userId : String)
    (body : UpdateJobRequest) (genTitle genDesc actId : String) (actOk : Bool)
    (now : Nat) (cur : JobRow) (cs : List UserComment)
    (hcur : findLatest s.jobs id orgId = some cur)
    (hstatus : body.status = some .queued)
    (hqt : body.queueType = some .rework)
    (hcs : body.userComments = some cs)
    (hgrew : (cur.userComments.getD []).length < cs.length) :
    (∃ row,
      (putJob s id orgId userId body genTitle genDesc actId actOk now).2 = .ok row ∧
      (putJob s id orgId userId body genTitle genDesc actId actOk now).1.jobs =
        (putPreSteps s orgId cur body now).1 ++ [row] ∧
      row.version = cur.version + 1 ∧
      row.codeGenerationLogs = none ∧
      row.codeVerificationLogs = none) ∧
    (cur.status ≠ .queued → body.orderInQueue = none →
      body.userAcceptanceStatus = none →
      ∀ lc, cs.getLast? = some lc → jsTrim lc.prompt ≠ "" →
        jsTrim lc.prompt ≠ "No comment provided" →
      ∃ row,
        (putJob s id orgId userId body genTitle genDesc actId actOk now).2 = .ok row ∧
        (putJob s id orgId userId body genTitle genDesc actId actOk now).1.jobs =
          s.jobs ++ [row] ∧
        row.version = cur.version + 1 ∧
        row.codeGenerationLogs = none ∧
        row.codeVerificationLogs = none ∧
        row.queueType = some .rework ∧
        row.orderInQueue = Int.ofNat (getNextQueuePosition s.jobs orgId .rework) ∧
        row.updates = some
          (match jsStr cur.updates with
            | some old => old ++ "\n" ++ retryMessageWithComment now (jsTrim lc.prompt)
            | none => retryMessageWithComment now (jsTrim lc.prompt))) := by
  have hretry : isRetryFor cur body = true := by
    simp [isRetryFor, commentsGrew, hstatus, hqt, hcs, hgrew]
  have hnnv : needsNewVersionFor cur body = true := by
    simp [needsNewVersionFor, hretry]
  have hguard : ¬(body.status = some JobStatus.inProgress ∧ cur.status = JobStatus.queued) := by
    rw [hstatus]; rintro ⟨h, -⟩; cases h
  constructor
  · unfold putJob
    rw [hcur]
    dsimp only
    rw [if_neg hguard, hnnv]
    simp only [if_true]
    refine ⟨_, rfl, by rw [createActivity_jobs], ?_, ?_, ?_⟩
    · rfl
    · simp [mkNewVersionRow, hretry]
    · simp [mkNewVersionRow, hretry]
  · intro hcurstat hnoOrd huas lc hlast htrim1 htrim2
    have hst' : body.status ≠ some .inReview := by rw [hstatus]; simp
    have hframe := putPreSteps_frame s orgId cur body now hst' huas
    unfold putJob
    rw [hcur]
    dsimp only
    rw [if_neg hguard, hframe, hnnv]
    simp only [if_true]
    refine ⟨_, rfl, by rw [createActivity_jobs], ?_, ?_, ?_, ?_, ?_, ?_⟩ <;>
      simp [mkNewVersionRow, newVersionQueue, updateMessageFor, hstatus, hqt, hcs, hnoOrd,
        hretry, hlast, htrim1, htrim2, Ne.symm hcurstat, commentsGrew, hgrew]

/-- Witness for `c6_retry_new_version`: a failed rework-requested job retried
with one comment gains version 2 and empty logs unconditionally, and — the
side conditions holding at this input — the rework tail slot and the retry
line quoting the comment. -/
theorem c6_retry_new_version_witness :
    (∃ row,
      (putJob c6wState "j" "o" "u" c6cBody "t" "d" "act" true 2000).2 = .ok row ∧
      (putJob c6wState "j" "o" "u" c6cBody "t" "d" "act" true 2000).1.jobs =
        (putPreSteps c6wState "o" c6wRow c6cBody 2000).1 ++ [row] ∧
      row.version = c6wRow.version + 1 ∧
      row.codeGenerationLogs = none ∧
      row.codeVerificationLogs = none) ∧
    (∃ row,
      (putJob c6wState "j" "o" "u" c6cBody "t" "d" "act" true 2000).2 = .ok row ∧
      (putJob c6wState "j" "o" "u" c6cBody "t" "d" "act" true 2000).1.jobs =
        c6wState.jobs ++ [row] ∧
      row.version = c6wRow.version + 1 ∧
      row.codeGenerationLogs = none ∧
      row.codeVerificationLogs = none ∧
      row.queueType = some .rework ∧
      row.orderInQueue = Int.ofNat (getNextQueuePosition c6wState.jobs "o" .rework) ∧
      row.updates = some
        (match jsStr c6wRow.updates with
          | some old => old ++ "\n" ++
              retryMessageWithComment 2000 (jsTrim (UserComment.mk "f.ts" 1 "fix it").prompt)
          | none =>
              retryMessageWithComment 2000 (jsTrim (UserComment.mk "f.ts" 1 "fix it").prompt))) :=
  have h := c6_retry_new_version c6wState "j" "o" "u" c6cBody "t" "d" "act" true 2000 c6wRow
    [⟨"f.ts", 1, "fix it"⟩] (by decide) rfl rfl rfl (by decide)
  ⟨h.1, h.2 (by decide) rfl rfl ⟨"f.ts", 1, "fix it"⟩ (by decide) (by decide) (by decide)⟩

/-! Claim C7 (reprioritize is a permutation). -/

/-- Claim C7, counterexample: the claim (and spec) says `position` is clamped
to `[0, n-1]`, so a negative position would clamp to 0; instead the handler
rejects it with 400 "Position must be non-negative" and the target job stays
at position 1. -/
theorem c7_counterexample :
    reprioritizeJob c7State "jA" "o" "u" (-1) "act" true 1000 =
      (c7State, .err 400 "Position must be non-negative") ∧
    ∀ r ∈ c7State.jobs, r.id = "jA" → r.orderInQueue = 1 := by
  decide

/-- Claim C7, amended: for a non-negative requested position, reprioritizing a
queued job permutes without adding or removing elements.  A job whose status is
not queued is rejected with 400 and the state is unchanged; a request whose
position equals the current position leaves the state unchanged; otherwise the
multiset of `(id, version)` keys of the queued jobs of that `(org, queue)` is
unchanged, their positions are exactly a permutation of `[0, n-1]`, and the
target job's position becomes `min position (n - 1)` (the upper clamp; negative
positions are rejected rather than clamped to 0). -/
theorem c7_reprioritize_permutation (s : St) (id orgId userId : String) (p : Int)
    (actId : String) (actOk : Bool) (now : Nat) (job : JobRow)
    (hwf : WF s.jobs)
    (hcur : findLatest s.jobs id orgId = some job)
    (hp : 0 ≤ p) :
    (job.status ≠ .queued →
      reprioritizeJob s id orgId userId p actId actOk now =
        (s, .err 400 "Only queued jobs can be reprioritized")) ∧
    (p = job.orderInQueue →
      (reprioritizeJob s id orgId userId p actId actOk now).1 = s) ∧
    (job.status = .queued → p ≠ job.orderInQueue →
      List.Perm
        ((queueFilter (reprioritizeJob s id orgId userId p actId actOk now).1.jobs
          orgId job.queueType).map jobKey)
        ((queueFilter s.jobs orgId job.queueType).map jobKey) ∧
      List.Perm
        ((queueFilter (reprioritizeJob s id orgId userId p actId actOk now).1.jobs
          orgId job.queueType).map (fun r => r.orderInQueue))
        ((List.range (queueFilter s.jobs orgId job.queueType).length).map Int.ofNat) ∧
      ∀ r ∈ (reprioritizeJob s id orgId userId p actId actOk now).1.jobs,
        r.id = job.id → r.version = job.version →
        r.orderInQueue =
          Int.ofNat (min p.toNat ((queueFilter s.jobs orgId job.queueType).length - 1))) := by
  have hnotlt : ¬ p < 0 := not_lt.mpr hp
  refine ⟨?_, ?_, ?_⟩
  · intro hne
    unfold reprioritizeJob
    rw [if_neg hnotlt, hcur]
    dsimp only
    rw [if_pos hne]
  · intro hpe
    unfold reprioritizeJob
    rw [if_neg hnotlt, hcur]
    dsimp only
    by_cases hq2 : job.status = .queued
    · rw [if_neg (fun h => h hq2), if_pos hpe]
    · rw [if_pos hq2]
  · intro hq hpne
    obtain ⟨hjob, hjid, hjorg, -⟩ := findLatest_spec hcur
    have hred : (reprioritizeJob s id orgId userId p actId actOk now).1.jobs =
        applyReorder s.jobs
          (spliceInsert ((sortByOrder (queueFilter s.jobs orgId job.queueType)).filter
            (fun j => decide (¬(j.id = id ∧ j.version = job.version)))) p.toNat job)
          id job.version orgId userId now := by
      unfold reprioritizeJob
      rw [if_neg hnotlt, hcur]
      dsimp only
      rw [if_neg (fun h => h hq), if_neg hpne]
      dsimp only
      rw [createActivity_jobs]
    have main := reorder_perm_spec s.jobs id orgId userId now job p.toNat
      hwf hjob hjid hjorg hq
    refine ⟨?_, ?_, ?_⟩
    · rw [hred]
      exact main.1
    · rw [hred]
      exact main.2.1
    · intro r hr
      rw [hred] at hr
      exact main.2.2 r hr

theorem c7_reprioritize_permutation_witness :
    List.Perm
      ((queueFilter (reprioritizeJob c7State "jA" "o" "u" 0 "act" true 1000).1.jobs
        "o" c7TargetRow.queueType).map jobKey)
      ((queueFilter c7State.jobs "o" c7TargetRow.queueType).map jobKey) ∧
    List.Perm
      ((queueFilter (reprioritizeJob c7State "jA" "o" "u" 0 "act" true 1000).1.jobs
        "o" c7TargetRow.queueType).map (fun r => r.orderInQueue))
      ((List.range (queueFilter c7State.jobs "o" c7TargetRow.queueType).length).map
        Int.ofNat) ∧
    ∀ r ∈ (reprioritizeJob c7State "jA" "o" "u" 0 "act" true 1000).1.jobs,
      r.id = c7TargetRow.id → r.version = c7TargetRow.version →
      r.orderInQueue = Int.ofNat (min (Int.toNat 0)
        ((queueFilter c7State.jobs "o" c7TargetRow.queueType).length - 1)) :=
  (c7_reprioritize_permutation c7State "jA" "o" "u" 0 "act" true 1000 c7TargetRow
      (by decide) (by decide) (by decide)).2.2 (by decide) (by decide)

/-! Claim C10 (audit-activity failures never fail the operation). -/

/-- Claim C10: for each jobs-route operation that writes an audit Activity row
(create, update, archive, execute, reprioritize), a failed Activity insert
(`actOk = false`) yields the same jobs table and the same response as a
successful one — the job-state change is kept and the endpoint still returns
its success response; only the activities table differs. -/
theorem c10_activity_failure_isolated :
    (∀ (s : St) (orgId userId : String) (userInput : UserInput) (repo : Option String)
        (createdBy jobId genTitle genDesc actId : String) (now : Nat),
      (createJob s orgId userId userInput repo createdBy jobId genTitle genDesc actId
          false now).1.jobs =
        (createJob s orgId userId userInput repo createdBy jobId genTitle genDesc actId
          true now).1.jobs ∧
      (createJob s orgId userId userInput repo createdBy jobId genTitle genDesc actId
          false now).2 =
        (createJob s orgId userId userInput repo createdBy jobId genTitle genDesc actId
          true now).2) ∧
    (∀ (s : St) (id orgId userId : String) (body : UpdateJobRequest)
        (genTitle genDesc actId : String) (now : Nat),
      (putJob s id orgId userId body genTitle genDesc actId false now).1.jobs =
        (putJob s id orgId userId body genTitle genDesc actId true now).1.jobs ∧
      (putJob s id orgId userId body genTitle genDesc actId false now).2 =
        (putJob s id orgId userId body genTitle genDesc actId true now).2) ∧
    (∀ (s : St) (id orgId userId actId : String) (now : Nat),
      (archiveJob s id orgId userId actId false now).1.jobs =
        (archiveJob s id orgId userId actId true now).1.jobs ∧
      (archiveJob s id orgId userId actId false now).2 =
        (archiveJob s id orgId userId actId true now).2) ∧
    (∀ (s : St) (id orgId userId : String) (isExecuting : Bool) (actId : String) (now : Nat),
      (executeJob s id orgId userId isExecuting actId false now).1.jobs =
        (executeJob s id orgId userId isExecuting actId true now).1.jobs ∧
      (executeJob s id orgId userId isExecuting actId false now).2 =
        (executeJob s id orgId userId isExecuting actId true now).2) ∧
    (∀ (s : St) (id orgId userId : String) (position : Int) (actId : String) (now : Nat),
      (reprioritizeJob s id orgId userId position actId false now).1.jobs =
        (reprioritizeJob s id orgId userId position actId true now).1.jobs ∧
      (reprioritizeJob s id orgId userId position actId false now).2 =
        (reprioritizeJob s id orgId userId position actId true now).2) := by
  refine ⟨?_, ?_, ?_, ?_, ?_⟩
  · intro s orgId userId userInput repo createdBy jobId genTitle genDesc actId now
    unfold createJob
    split
    · exact ⟨rfl, rfl⟩
    · exact ⟨by rw [createActivity_jobs, createActivity_jobs], rfl⟩
  · intro s id orgId userId body genTitle genDesc actId now
    unfold putJob
    split
    · exact ⟨rfl, rfl⟩
    · split
      · exact ⟨rfl, rfl⟩
      · split
        · exact ⟨by rw [createActivity_jobs, createActivity_jobs], rfl⟩
        · exact ⟨by rw [createActivity_jobs, createActivity_jobs], rfl⟩
  · intro s id orgId userId actId now
    unfold archiveJob
    split
    · exact ⟨rfl, rfl⟩
    · split
      · exact ⟨rfl, rfl⟩
      · exact ⟨by rw [createActivity_jobs, createActivity_jobs], rfl⟩
  · intro s id orgId userId isExecuting actId now
    unfold executeJob
    split
    · exact ⟨rfl, rfl⟩
    · split
      · exact ⟨rfl, rfl⟩
      · split
        · exact ⟨rfl, rfl⟩
        · split
          · exact ⟨rfl, rfl⟩
          · exact ⟨by rw [createActivity_jobs, createActivity_jobs], rfl⟩
  · intro s id orgId userId position actId now
    unfold reprioritizeJob
    split
    · exact ⟨rfl, rfl⟩
    · split
      · exact ⟨rfl, rfl⟩
      · split
        · exact ⟨rfl, rfl⟩
        · split
          · exact ⟨rfl, rfl⟩
          · exact ⟨by rw [createActivity_jobs, createActivity_jobs], rfl⟩

end Sia
